import Mathlib

/-!
# Watchdog8266: the ping watchdog of `src/main.cpp`

A shallow embedding of the watchdog sketch: the global variables become the fields of
`State`, every function of the sketch becomes a function on `State` that also returns the
list of externally visible effects (`Event`) it performs, in program order.

Conventions of the embedding
* `int` values (counters) are integers and `int` arithmetic is exact: signed overflow is
  undefined in C++, and the counters are reset long before they come near `2^31`; indices
  (`targetCount`, `pingIndex`, `hostsIndex`) are naturals, they are never negative in the
  sketch.
* `unsigned long` values are naturals below `2^32`; `millis()` is the uptime modulo `2^32`
  and the subtraction of two `unsigned long` is taken modulo `2^32` (`subU32`).
* every call of `millis()` is a separate reading: the functions take one uptime argument per
  call, in program order.
* the arrays of size `TARGET_COUNT` are lists; `TARGET_COUNT`, `pingHosts` and the resolver
  `WiFi.hostByName` are gathered in `Config`.
-/

namespace Watchdog

/-! ## Constants of the sketch -/

/-- Seconds since the last received ping before the connection is deemed lost. -/
def INTERNET_LOST : Nat := 300
/-- Seconds between ping requests. -/
def PING_INTERVAL : Nat := 10
/-- Seconds between two status reports. -/
def REPORT_INTERVAL : Nat := 120
/-- Minimum number of pings sent before a target may be reported unreliable. -/
def PING_SAMPLE_SIZE : Int := 10
/-- Numerator of the response rate (over 10) under which a target is unreliable. -/
def UNRELIABLE : Int := 7
/-- Sent count of the first target above which the statistics are reset. -/
def RESET_COUNTER : Int := 90000

/-- Number of values of an `unsigned long` on the ESP8266. -/
def U32 : Nat := 4294967296

/-- The clock `millis()`: the uptime `t` in milliseconds, as an `unsigned long`. -/
def millis (t : Nat) : Nat := t % U32

/-- Subtraction `a - b` of two `unsigned long` values. -/
def subU32 (a b : Nat) : Nat := (a % U32 + (U32 - b % U32)) % U32

/-! ## Data model -/

/-- An IPv4 address (`IPAddress`), as its 32-bit value. -/
abbrev IPAddress := Nat

/-- The build-time configuration: the array `pingHosts` (its length is `TARGET_COUNT`) and the
name resolution `WiFi.hostByName`, which yields an address or fails. -/
structure Config where
  pingHosts : List String
  hostByName : String → Option IPAddress

/-- The number of configured ping targets. -/
def Config.TARGET_COUNT (cfg : Config) : Nat := cfg.pingHosts.length

/-- The two output pins driven by the sketch. -/
inductive Pin where
  | RELAY_PIN
  | LED_BUILTIN
deriving DecidableEq, Repr

/-- The fields of `AsyncPingResponse` read by the sketch. -/
structure AsyncPingResponse where
  answer : Bool
  addr : IPAddress
  size : Nat := 0
  icmp_seq : Nat := 0
  ttl : Nat := 0
  time : Nat := 0
  total_sent : Nat := 0
  total_recv : Nat := 0
  total_time : Nat := 0
  mac : Option Nat := none
deriving DecidableEq, Repr

/-- The externally visible effects: lines printed on `Serial` (one constructor per format
string, carrying the printed arguments), echo requests, pin writes and blocking delays. -/
inductive Event where
  | logReportHeader (ms : Nat)
  | logReportLine (host : String) (rcvd sent : Int) (warning : Bool)
  | logBlank
  | logInvalidHost (host : String)
  | logSending (ms : Nat) (index : Nat) (host : String)
  | logReply (ms : Nat) (index : Nat) (host : String)
  | logPingFailed (ms : Nat) (seconds : Nat)
  | logUserSending (ms : Nat) (host : String) (ip : IPAddress)
  | logUserInvalid (ms : Nat) (host : String)
  | logUserReply (ms : Nat) (response : AsyncPingResponse)
  | logUserNoReply (ms : Nat) (response : AsyncPingResponse)
  | logUserFinal (ms : Nat) (response : AsyncPingResponse)
  | logUserMac (mac : Nat)
  | targetPingerBegin (addr : IPAddress) (count : Nat) (timeout : Nat)
  | userPingerBegin (addr : IPAddress) (count : Nat) (timeout : Nat)
  | digitalWrite (pin : Pin) (high : Bool)
  | delay (ms : Nat)
deriving DecidableEq, Repr

/-- The global variables of the sketch and the level of its two output pins. -/
structure State where
  targets : List IPAddress
  pingSentCount : List Int
  pingRcvdCount : List Int
  hostsIndex : List Nat
  targetCount : Nat
  pingIndex : Nat
  lastValidPing : Nat
  relayPin : Bool
  ledPin : Bool
deriving DecidableEq, Repr

/-- The state at power-up: zero-initialised globals, both pins low. -/
def State.boot (cfg : Config) : State where
  targets := List.replicate cfg.TARGET_COUNT 0
  pingSentCount := List.replicate cfg.TARGET_COUNT 0
  pingRcvdCount := List.replicate cfg.TARGET_COUNT 0
  hostsIndex := List.replicate cfg.TARGET_COUNT 0
  targetCount := 0
  pingIndex := 0
  lastValidPing := 0
  relayPin := false
  ledPin := false

/-- The four arrays have `TARGET_COUNT` entries, as declared in the sketch. -/
def State.Sized (cfg : Config) (s : State) : Prop :=
  s.targets.length = cfg.TARGET_COUNT ∧ s.pingSentCount.length = cfg.TARGET_COUNT ∧
  s.pingRcvdCount.length = cfg.TARGET_COUNT ∧ s.hostsIndex.length = cfg.TARGET_COUNT

instance (cfg : Config) (s : State) : Decidable (s.Sized cfg) := by
  unfold State.Sized; infer_instance

/-! ## The functions of the sketch -/

/-- The flag `unreliable` computed on line 43 from the sent and received counts of a target;
the division of two `int` truncates toward zero. -/
def unreliable (sent rcvd : Int) : Bool :=
  decide (sent > PING_SAMPLE_SIZE) && decide (rcvd < Int.tdiv (UNRELIABLE * sent) 10)

/-- The line printed by `reportTargetStatus` for the target of index `k`. -/
def reportLine (cfg : Config) (s : State) (k : Nat) : Event :=
  Event.logReportLine (cfg.pingHosts.getD (s.hostsIndex.getD k 0) "")
    (s.pingRcvdCount.getD k 0) (s.pingSentCount.getD k 0)
    (unreliable (s.pingSentCount.getD k 0) (s.pingRcvdCount.getD k 0))

/-- The function `reportTargetStatus`, called at uptime `t`. -/
def reportTargetStatus (cfg : Config) (t : Nat) (s : State) : State × List Event :=
  if s.targetCount < 1 then (s, [])
  else
    (s, [Event.logReportHeader (millis t)]
          ++ (List.range s.targetCount).map (reportLine cfg s)
          ++ [Event.logBlank])

/-- The function `resetTargetStatus`: both `memset` clear the whole array. -/
def resetTargetStatus (s : State) : State :=
  { s with
    pingIndex := 0
    pingSentCount := List.replicate s.pingSentCount.length 0
    pingRcvdCount := List.replicate s.pingRcvdCount.length 0 }

/-- One iteration of the loop of `setupTargets`, for the configuration index `i`. A failed
resolution leaves the slot `targets[targetCount]` as it is; that slot is not a valid target
unless a later resolution overwrites it. -/
def setupTargetsStep (cfg : Config) (acc : State × List Event) (i : Nat) :
    State × List Event :=
  match cfg.hostByName (cfg.pingHosts.getD i "") with
  | some ip =>
    ({ acc.1 with
        targets := acc.1.targets.set acc.1.targetCount ip
        hostsIndex := acc.1.hostsIndex.set acc.1.targetCount i
        targetCount := acc.1.targetCount + 1 },
      acc.2)
  | none => (acc.1, acc.2 ++ [Event.logInvalidHost (cfg.pingHosts.getD i "")])

/-- The function `setupTargets`. -/
def setupTargets (cfg : Config) (s : State) : State × List Event :=
  let r := (List.range cfg.TARGET_COUNT).foldl (setupTargetsStep cfg)
    ({ s with targetCount := 0 }, [])
  (resetTargetStatus r.1, r.2)

/-- The test of line 73 that makes `sendTargetPing` reset the statistics first. -/
def resetDue (s : State) : Bool :=
  decide (s.pingIndex = 0) && decide (s.pingSentCount.getD 0 0 > RESET_COUNTER)

/-- The function `sendTargetPing`, called at uptime `t`. -/
def sendTargetPing (cfg : Config) (t : Nat) (s : State) : State × List Event :=
  if s.targetCount < 1 then (s, [])
  else
    let s1 := if resetDue s then resetTargetStatus s else s
    ({ s1 with
        pingSentCount := s1.pingSentCount.set s1.pingIndex
          (s1.pingSentCount.getD s1.pingIndex 0 + 1)
        pingIndex := (s1.pingIndex + 1) % s1.targetCount },
      [Event.logSending (millis t) s1.pingIndex
          (cfg.pingHosts.getD (s1.hostsIndex.getD s1.pingIndex 0) ""),
        Event.targetPingerBegin (s1.targets.getD s1.pingIndex 0) 1 5000])

/-- The search loop of `targetPingerCallback`: the first index `j < targetCount` with
`targets[j] == addr`, if any. -/
def findTarget (s : State) (addr : IPAddress) : Option Nat :=
  (List.range s.targetCount).find? (fun j => s.targets.getD j 0 == addr)

/-- The function `targetPingerCallback`; `tLog` and `tSet` are the uptimes of its two calls
of `millis()`. The last component is the returned value. -/
def targetPingerCallback (cfg : Config) (tLog tSet : Nat) (response : AsyncPingResponse)
    (s : State) : State × List Event × Bool :=
  if response.answer then
    match findTarget s response.addr with
    | some j =>
      ({ s with
          pingRcvdCount := s.pingRcvdCount.set j (s.pingRcvdCount.getD j 0 + 1)
          lastValidPing := millis tSet },
        [Event.logReply (millis tLog) j (cfg.pingHosts.getD (s.hostsIndex.getD j 0) "")],
        true)
    | none => ({ s with lastValidPing := millis tSet }, [], true)
  else (s, [], true)

/-- The liveness check at the top of `loop` (lines 192 to 198); `t`, `tLog` and `tSet` are the
uptimes of its three calls of `millis()`. -/
def livenessCheck (t tLog tSet : Nat) (s : State) : State × List Event :=
  if subU32 (millis t) s.lastValidPing > INTERNET_LOST * 1000 then
    let s1 := { s with lastValidPing := millis tSet }
    let s2 := { s1 with relayPin := true }
    let s3 := { s2 with relayPin := false }
    (s3, [Event.logPingFailed (millis tLog) INTERNET_LOST,
          Event.digitalWrite Pin.RELAY_PIN true,
          Event.delay 20000,
          Event.digitalWrite Pin.RELAY_PIN false])
  else (s, [])

/-- One round of the loop of `blinkLED`: toggle the LED, wait 50 ms. -/
def blinkOnce (acc : State × List Event) : State × List Event :=
  ({ acc.1 with ledPin := !acc.1.ledPin },
    acc.2 ++ [Event.digitalWrite Pin.LED_BUILTIN (!acc.1.ledPin), Event.delay 50])

/-- The function `blinkLED`: four rounds. -/
def blinkLED (s : State) : State × List Event :=
  blinkOnce (blinkOnce (blinkOnce (blinkOnce (s, []))))

/-- The function `loop`: the liveness check, a delay of two seconds, the LED burst. -/
def loop (t tLog tSet : Nat) (s : State) : State × List Event :=
  let r := livenessCheck t tLog tSet s
  let b := blinkLED r.1
  (b.1, r.2 ++ [Event.delay 2000] ++ b.2)

/-- The recovery action is performed by a list of effects: the relay is switched on. -/
def recoveryTriggered (out : List Event) : Prop :=
  Event.digitalWrite Pin.RELAY_PIN true ∈ out

instance (out : List Event) : Decidable (recoveryTriggered out) := by
  unfold recoveryTriggered; infer_instance

/-- The echo requests issued on `targetPinger` by a list of effects, in order:
address, number of probes, timeout in milliseconds. -/
def echoRequests : List Event → List (IPAddress × Nat × Nat)
  | [] => []
  | Event.targetPingerBegin a c d :: rest => (a, c, d) :: echoRequests rest
  | _ :: rest => echoRequests rest

/-- The unreliable flags shown by the report lines of a list of effects, in order. -/
def reportWarnings : List Event → List Bool
  | [] => []
  | Event.logReportLine _ _ _ w :: rest => w :: reportWarnings rest
  | _ :: rest => reportWarnings rest

/-- A configuration with three hosts, resolved to the addresses 11, 22 and 33. -/
def trioConfig : Config :=
  ⟨["a.lan", "b.lan", "c.lan"],
    fun h => if h = "a.lan" then some 11 else if h = "b.lan" then some 22 else some 33⟩

/-- The resolver used in the examples: only the literal address 8.8.8.8 resolves. -/
def sampleResolver (host : String) : Option IPAddress :=
  if host = "8.8.8.8" then some 134744072 else none

/-- The configuration of the sketch as committed: one target, 8.8.8.8. -/
def sketchConfig : Config := ⟨["8.8.8.8"], sampleResolver⟩

/-! ## The scheduler: interleavings of the activities -/

/-- One activity of the sketch: a tick of `pingTimer`, a tick of `reportTimer`, a call of
`resetTargetStatus`, a delivery to `targetPingerCallback`, or one iteration of `loop`.
The naturals are the uptimes of the calls of `millis()` made by the activity. -/
inductive Action where
  | ping (t : Nat)
  | report (t : Nat)
  | reset
  | response (tLog tSet : Nat) (response : AsyncPingResponse)
  | loop (t tLog tSet : Nat)
deriving DecidableEq, Repr

/-- The effect of one activity on the state, with the effects it performs. -/
def Action.apply (cfg : Config) (s : State) : Action → State × List Event
  | Action.ping t => sendTargetPing cfg t s
  | Action.report t => reportTargetStatus cfg t s
  | Action.reset => (resetTargetStatus s, [])
  | Action.response tLog tSet r =>
    ((targetPingerCallback cfg tLog tSet r s).1, (targetPingerCallback cfg tLog tSet r s).2.1)
  | Action.loop t tLog tSet => Watchdog.loop t tLog tSet s

/-- The activities of a list, one after the other. -/
def runActions (cfg : Config) : State → List Action → State × List Event
  | s, [] => (s, [])
  | s, a :: rest =>
    ((runActions cfg (a.apply cfg s).1 rest).1,
      (a.apply cfg s).2 ++ (runActions cfg (a.apply cfg s).1 rest).2)

/-- An activity that delivers no successful reply, and whose liveness check, if it is an
iteration of `loop`, is made at an uptime between `lo` and `hi`. -/
def Action.quietWithin (lo hi : Nat) : Action → Prop
  | Action.response _ _ r => r.answer = false
  | Action.loop t _ _ => lo ≤ t ∧ t ≤ hi
  | _ => True

instance (lo hi : Nat) (a : Action) : Decidable (a.quietWithin lo hi) := by
  cases a <;> unfold Action.quietWithin <;> infer_instance

/-- The state of the sketch together with the echo requests that were dispatched and have not
been answered yet (the address each of them was sent to). -/
structure Tracked where
  st : State
  inFlight : List IPAddress
deriving DecidableEq, Repr

/-- One activity under the reply discipline: a successful reply is delivered only if it
carries the address of a dispatched ping that is still unanswered, and it consumes that ping.
With `forget`, a reset of the statistics also forgets the pings dispatched before it, so that
none of them is answered afterwards. -/
def Tracked.step (cfg : Config) (forget : Bool) (y : Tracked) (a : Action) : Option Tracked :=
  match a with
  | Action.response _ _ r =>
    if r.answer then
      if r.addr ∈ y.inFlight then
        some ⟨(a.apply cfg y.st).1, y.inFlight.erase r.addr⟩
      else none
    else some ⟨(a.apply cfg y.st).1, y.inFlight⟩
  | Action.reset => some ⟨(a.apply cfg y.st).1, if forget then [] else y.inFlight⟩
  | Action.ping _ =>
    some ⟨(a.apply cfg y.st).1,
      (if forget && (decide (1 ≤ y.st.targetCount) && resetDue y.st) then [] else y.inFlight)
        ++ (echoRequests (a.apply cfg y.st).2).map (fun q => q.1)⟩
  | _ => some ⟨(a.apply cfg y.st).1, y.inFlight⟩

/-- A list of activities under the reply discipline; `none` when a reply breaks it. -/
def Tracked.run (cfg : Config) (forget : Bool) : Tracked → List Action → Option Tracked
  | y, [] => some y
  | y, a :: rest =>
    match y.step cfg forget a with
    | some z => z.run cfg forget rest
    | none => none

/-- The tracked state right after `setupTargets`, run from the state `s0`. -/
def Tracked.afterSetup (cfg : Config) (s0 : State) : Tracked :=
  ⟨(setupTargets cfg s0).1, []⟩

/-- Every valid target has received at most as many replies as pings were sent to it. -/
def rcvdLeSent (s : State) : Prop :=
  ∀ k, k < s.targetCount → s.pingRcvdCount.getD k 0 ≤ s.pingSentCount.getD k 0

/-- A configuration with two names of the same host. -/
def aliasConfig : Config := ⟨["8.8.8.8", "dns"], fun _ => some 134744072⟩

/-- The addresses of the valid targets are pairwise distinct. -/
def distinctTargets (s : State) : Prop :=
  ∀ i, i < s.targetCount → ∀ j, j < s.targetCount →
    s.targets.getD i 0 = s.targets.getD j 0 → i = j

instance (s : State) : Decidable (distinctTargets s) := by
  unfold distinctTargets; infer_instance

/-- The invariant of the tracked runs in which a reset forgets the pings dispatched before
it: the counter arrays cover the valid targets, the cursor is on a valid target, the valid
targets have distinct addresses, every unanswered ping was sent to a valid target, and for each
valid target the replies counted plus the pings still unanswered do not exceed the pings
counted as sent. -/
structure Tracked.Inv (y : Tracked) : Prop where
  sentSize : y.st.targetCount ≤ y.st.pingSentCount.length
  rcvdSize : y.st.targetCount ≤ y.st.pingRcvdCount.length
  cursor : 1 ≤ y.st.targetCount → y.st.pingIndex < y.st.targetCount
  distinct : distinctTargets y.st
  known : ∀ a ∈ y.inFlight, ∃ k, k < y.st.targetCount ∧ y.st.targets.getD k 0 = a
  budget : ∀ k, k < y.st.targetCount →
    y.st.pingRcvdCount.getD k 0 + (y.inFlight.count (y.st.targets.getD k 0) : Int)
      ≤ y.st.pingSentCount.getD k 0

/-! ## The diagnostic pinger -/

/-- The function `sendUserPing`, called at uptime `t` for the host `ipaddress`; in the sketch
`count` defaults to 3 and `timeout` to 1000. It reads and writes no global variable. -/
def sendUserPing (cfg : Config) (t : Nat) (ipaddress : String) (count timeout : Nat)
    (s : State) : State × List Event :=
  match cfg.hostByName ipaddress with
  | some ip =>
    (s, [Event.logUserSending (millis t) ipaddress ip, Event.userPingerBegin ip count timeout])
  | none => (s, [Event.logUserInvalid (millis t) ipaddress])

/-- The function `userPingerRecvCallback`; the last component is the returned value. -/
def userPingerRecvCallback (t : Nat) (response : AsyncPingResponse) (s : State) :
    State × List Event × Bool :=
  if response.answer then (s, [Event.logUserReply (millis t) response], false)
  else (s, [Event.logUserNoReply (millis t) response], false)

/-- The function `userPingerFinalCallback`; the last component is the returned value. -/
def userPingerFinalCallback (t : Nat) (response : AsyncPingResponse) (s : State) :
    State × List Event × Bool :=
  (s,
    [Event.logUserFinal (millis t) response]
      ++ (match response.mac with
          | some m => [Event.logUserMac m]
          | none => [])
      ++ [Event.logBlank],
    true)

/-- The echo requests issued on `userPinger` by a list of effects, in order. -/
def userEchoRequests : List Event → List (IPAddress × Nat × Nat)
  | [] => []
  | Event.userPingerBegin a c d :: rest => (a, c, d) :: userEchoRequests rest
  | _ :: rest => userEchoRequests rest

/-- The lines printed on `Serial` by a list of effects. -/
def logLines : List Event → List Event
  | [] => []
  | Event.targetPingerBegin _ _ _ :: rest => logLines rest
  | Event.userPingerBegin _ _ _ :: rest => logLines rest
  | Event.digitalWrite _ _ :: rest => logLines rest
  | Event.delay _ :: rest => logLines rest
  | e :: rest => e :: logLines rest

/-- The levels written to the relay pin by a list of effects, in order. -/
def relayWrites : List Event → List Bool
  | [] => []
  | Event.digitalWrite Pin.RELAY_PIN b :: rest => b :: relayWrites rest
  | _ :: rest => relayWrites rest

/-- The divisor of the `%` of line 77, when `sendTargetPing` reaches that line; `none` when it
returns before. -/
def sendTargetPingDivisor (s : State) : Option Nat :=
  if s.targetCount < 1 then none
  else some (if resetDue s then resetTargetStatus s else s).targetCount

/-! ## The registry built by `setupTargets` -/

/-- The entry `i` of `pingHosts` resolves. -/
def resolves (cfg : Config) (i : Nat) : Bool :=
  (cfg.hostByName (cfg.pingHosts.getD i "")).isSome

/-- What holds of the state and the log of `setupTargets` after the entries `0, ..., i-1` of
`pingHosts` have been handled, starting from `s0`. -/
structure SetupInv (cfg : Config) (s0 : State) (i : Nat) (acc : State × List Event) :
    Prop where
  count : acc.1.targetCount = ((List.range i).filter (resolves cfg)).length
  bound : acc.1.targetCount ≤ i
  index : acc.1.hostsIndex.take acc.1.targetCount = (List.range i).filter (resolves cfg)
  addrs : acc.1.targets.take acc.1.targetCount =
    (List.range i).filterMap (fun j => cfg.hostByName (cfg.pingHosts.getD j ""))
  log : acc.2 = ((List.range i).filter (fun j => !resolves cfg j)).map
    (fun j => Event.logInvalidHost (cfg.pingHosts.getD j ""))
  resolved : ∀ k, k < acc.1.targetCount →
    cfg.hostByName (cfg.pingHosts.getD (acc.1.hostsIndex.getD k 0) "")
      = some (acc.1.targets.getD k 0)
  inRange : ∀ k, k < acc.1.targetCount → acc.1.hostsIndex.getD k 0 < i
  targetsSize : acc.1.targets.length = s0.targets.length
  indexSize : acc.1.hostsIndex.length = s0.hostsIndex.length
  sent : acc.1.pingSentCount = s0.pingSentCount
  rcvd : acc.1.pingRcvdCount = s0.pingRcvdCount
  stamp : acc.1.lastValidPing = s0.lastValidPing

/-- The configuration of the example of the specification: a literal address and a name that
does not resolve. -/
def twoHostConfig : Config := ⟨["8.8.8.8", "not-a-real-host"], sampleResolver⟩

/-! ## The rotation of the cursor -/

/-- The sent counts are balanced around the cursor: there is at least one valid target, the
cursor is on a valid target, the sent-count array covers the valid targets, and with `q` the
number of completed rounds every valid target before the cursor has `q + 1` pings sent and
every valid target from the cursor on has `q`. -/
structure Balanced (s : State) (q : Nat) : Prop where
  size : s.targetCount ≤ s.pingSentCount.length
  cursor : s.pingIndex < s.targetCount
  profile : ∀ k, k < s.targetCount →
    s.pingSentCount.getD k 0 = (q : Int) + (if k < s.pingIndex then 1 else 0)

/-- The invariant of the rotation: either there is no valid target, or the sent counts are
balanced around the cursor and the sent count of the first target is at most
`RESET_COUNTER + 1`. -/
def Rotation (s : State) : Prop :=
  s.targetCount = 0 ∨
    ∃ q : Nat, Balanced s q ∧
      (q : Int) + (if 0 < s.pingIndex then 1 else 0) ≤ RESET_COUNTER + 1

/-- The largest value of a 32-bit `int`. -/
def INT_MAX : Int := 2147483647

/-- Every index used by the sketch is inside its array: the arrays have `TARGET_COUNT`
entries, there are at most `TARGET_COUNT` valid targets, every valid entry of `hostsIndex` is
an index of `pingHosts`, and the cursor is on a valid target when there is one. -/
structure IndexSafe (cfg : Config) (s : State) : Prop where
  sized : s.Sized cfg
  count : s.targetCount ≤ cfg.TARGET_COUNT
  hosts : ∀ k, k < s.targetCount → s.hostsIndex.getD k 0 < cfg.TARGET_COUNT
  cursor : 1 ≤ s.targetCount → s.pingIndex < s.targetCount

/-- The first `m` ticks of `pingTimer`, one every `PING_INTERVAL` seconds. -/
def pingTicks (m : Nat) : List Action :=
  (List.range m).map (fun i => Action.ping (PING_INTERVAL * 1000 * (i + 1)))

/-! # Theorems -/

/-! ## Arithmetic of the clock -/

theorem subU32_of_le {a b : Nat} (hb : b ≤ a) (ha : a < U32) : subU32 a b = a - b := by
  unfold subU32 U32 at *
  omega

theorem millis_lt (t : Nat) : millis t < U32 := by
  unfold millis U32
  omega

theorem subU32_millis_window {t0 t : Nat} (h0 : t0 ≤ t) (h1 : t ≤ t0 + 300000) :
    subU32 (millis t) (millis t0) ≤ 300000 := by
  unfold subU32 millis U32
  omega

/-! ## The liveness check -/

theorem livenessCheck_triggered_iff (t tLog tSet : Nat) (s : State) :
    recoveryTriggered (livenessCheck t tLog tSet s).2 ↔
      300000 < subU32 (millis t) s.lastValidPing := by
  unfold livenessCheck recoveryTriggered INTERNET_LOST
  by_cases h : subU32 (millis t) s.lastValidPing > 300 * 1000
  · rw [if_pos h]
    simp
    omega
  · rw [if_neg h]
    simp
    omega

theorem livenessCheck_of_not_triggered {t tLog tSet : Nat} {s : State}
    (h : ¬ recoveryTriggered (livenessCheck t tLog tSet s).2) :
    livenessCheck t tLog tSet s = (s, []) := by
  have h1 : ¬ (subU32 (millis t) s.lastValidPing > INTERNET_LOST * 1000) := by
    intro hc
    apply h
    rw [livenessCheck_triggered_iff]
    unfold INTERNET_LOST at hc
    omega
  unfold livenessCheck
  rw [if_neg h1]

theorem livenessCheck_of_triggered {t tLog tSet : Nat} {s : State}
    (h : recoveryTriggered (livenessCheck t tLog tSet s).2) :
    (livenessCheck t tLog tSet s).1 =
      { s with lastValidPing := millis tSet, relayPin := false } := by
  have h1 : subU32 (millis t) s.lastValidPing > INTERNET_LOST * 1000 := by
    rw [livenessCheck_triggered_iff] at h
    unfold INTERNET_LOST
    omega
  unfold livenessCheck
  rw [if_pos h1]

/-- C1: one liveness check, with `t`, `tLog`, `tSet` the uptimes of its three calls of
`millis()`. The threshold is 300000 ms; the recovery action is triggered exactly when the
`unsigned long` difference `millis() - lastValidPing` exceeds it, which is the plain
difference whenever `lastValidPing` is not ahead of the clock reading; when it triggers,
`lastValidPing` becomes the reading of the clock taken by the assignment, which is the reading
of the test when the clock has not advanced in between; when it does not trigger, the whole
state (timestamp, relay, counters) is unchanged and nothing is output. -/
theorem livenessCheck_spec (t tLog tSet : Nat) (s : State) :
    INTERNET_LOST * 1000 = 300000 ∧
    (recoveryTriggered (livenessCheck t tLog tSet s).2 ↔
      300000 < subU32 (millis t) s.lastValidPing) ∧
    (s.lastValidPing ≤ millis t →
      (recoveryTriggered (livenessCheck t tLog tSet s).2 ↔
        300000 < millis t - s.lastValidPing)) ∧
    (recoveryTriggered (livenessCheck t tLog tSet s).2 →
      (livenessCheck t tLog tSet s).1.lastValidPing = millis tSet) ∧
    (recoveryTriggered (livenessCheck t t t s).2 →
      (livenessCheck t t t s).1.lastValidPing = millis t) ∧
    (¬ recoveryTriggered (livenessCheck t tLog tSet s).2 →
      livenessCheck t tLog tSet s = (s, [])) := by
  refine ⟨by decide, livenessCheck_triggered_iff t tLog tSet s, ?_, ?_, ?_, ?_⟩
  · intro hle
    rw [livenessCheck_triggered_iff, subU32_of_le hle (millis_lt t)]
  · intro h
    rw [livenessCheck_of_triggered h]
  · intro h
    rw [livenessCheck_of_triggered h]
  · exact livenessCheck_of_not_triggered

/-- Witness of C1: from the power-up state (timestamp 0) the check made at uptime 300001 ms
triggers and stores that reading; the check made at 300000 ms leaves the state alone. -/
theorem livenessCheck_spec_witness :
    (livenessCheck 300001 300001 300001 (State.boot sketchConfig)).1.lastValidPing = 300001 ∧
    livenessCheck 300000 300000 300000 (State.boot sketchConfig)
      = (State.boot sketchConfig, []) :=
  ⟨(livenessCheck_spec 300001 300001 300001 (State.boot sketchConfig)).2.2.2.1 (by decide),
   (livenessCheck_spec 300000 300000 300000 (State.boot sketchConfig)).2.2.2.2.2 (by decide)⟩

/-! ## No duplicate trigger within one window -/

theorem blinkLED_fst (s : State) : (blinkLED s).1 = s := by
  simp [blinkLED, blinkOnce]

theorem not_recoveryTriggered_blinkLED (s : State) : ¬ recoveryTriggered (blinkLED s).2 := by
  simp [blinkLED, blinkOnce, recoveryTriggered]

theorem loop_fst (t tLog tSet : Nat) (s : State) :
    (loop t tLog tSet s).1 = (livenessCheck t tLog tSet s).1 := by
  simp [loop, blinkLED_fst]

theorem recoveryTriggered_loop_iff (t tLog tSet : Nat) (s : State) :
    recoveryTriggered (loop t tLog tSet s).2 ↔
      recoveryTriggered (livenessCheck t tLog tSet s).2 := by
  have hb := not_recoveryTriggered_blinkLED (livenessCheck t tLog tSet s).1
  unfold recoveryTriggered at *
  simp only [loop, List.mem_append, List.mem_singleton]
  constructor
  · rintro ((h | h) | h)
    · exact h
    · cases h
    · exact absurd h hb
  · intro h
    exact Or.inl (Or.inl h)

theorem recoveryTriggered_append (xs ys : List Event) :
    recoveryTriggered (xs ++ ys) ↔ recoveryTriggered xs ∨ recoveryTriggered ys := by
  simp [recoveryTriggered]

/-- A quiet activity made inside the window neither triggers the recovery action nor changes
the liveness timestamp. -/
theorem quiet_apply (cfg : Config) {t0 tSet : Nat} (h0 : t0 ≤ tSet) {s : State}
    (hs : s.lastValidPing = millis tSet) {a : Action}
    (ha : a.quietWithin tSet (t0 + 300000)) :
    ¬ recoveryTriggered (a.apply cfg s).2 ∧ (a.apply cfg s).1.lastValidPing = millis tSet := by
  cases a with
  | ping t =>
    simp only [Action.apply, sendTargetPing]
    split
    · exact ⟨by simp [recoveryTriggered], hs⟩
    · refine ⟨by simp [recoveryTriggered], ?_⟩
      split <;> simpa [resetTargetStatus] using hs
  | report t =>
    simp only [Action.apply, reportTargetStatus]
    split
    · exact ⟨by simp [recoveryTriggered], hs⟩
    · exact ⟨by simp [recoveryTriggered, reportLine], hs⟩
  | reset => exact ⟨by simp [Action.apply, recoveryTriggered], by simpa [Action.apply, resetTargetStatus] using hs⟩
  | response tLog tS r =>
    have hr : r.answer = false := ha
    simp [Action.apply, targetPingerCallback, hr, recoveryTriggered, hs]
  | loop t tLog tS =>
    obtain ⟨hlo, hhi⟩ : tSet ≤ t ∧ t ≤ t0 + 300000 := ha
    have hwin : subU32 (millis t) (millis tSet) ≤ 300000 :=
      subU32_millis_window hlo (by omega)
    have hno : ¬ recoveryTriggered (livenessCheck t tLog tS s).2 := by
      rw [livenessCheck_triggered_iff, hs]
      omega
    simp only [Action.apply]
    rw [recoveryTriggered_loop_iff, loop_fst, livenessCheck_of_not_triggered hno]
    exact ⟨by simp [recoveryTriggered], hs⟩

theorem quiet_run (cfg : Config) {t0 tSet : Nat} (h0 : t0 ≤ tSet) (acts : List Action) :
    ∀ s : State, s.lastValidPing = millis tSet →
      (∀ a ∈ acts, a.quietWithin tSet (t0 + 300000)) →
      ¬ recoveryTriggered (runActions cfg s acts).2 ∧
        (runActions cfg s acts).1.lastValidPing = millis tSet := by
  induction acts with
  | nil =>
    intro s hs _
    exact ⟨by simp [runActions, recoveryTriggered], hs⟩
  | cons a rest ih =>
    intro s hs hq
    have ha := quiet_apply cfg h0 hs (hq a (List.mem_cons_self a rest))
    have hr := ih (a.apply cfg s).1 ha.2 (fun b hb => hq b (List.mem_cons_of_mem a hb))
    simp only [runActions]
    rw [recoveryTriggered_append]
    exact ⟨fun h => h.elim ha.1 hr.1, hr.2⟩

/-- C2: let a liveness check made at uptime `t` trigger (its timestamp assignment reading the
clock at `tSet`, not before `t`). Then, whatever pings, reports, resets, unanswered ping
deliveries and loop iterations follow, as long as no successful reply arrives and the
liveness checks are made at uptimes at most `t + 300000`, none of them triggers the recovery
action again; and a later check that does trigger is made more than 300000 ms after `t`. -/
theorem no_duplicate_trigger (cfg : Config) (s : State) (t tLog tSet : Nat)
    (acts : List Action)
    (hfire : recoveryTriggered (loop t tLog tSet s).2)
    (hclock : t ≤ tSet)
    (hquiet : ∀ a ∈ acts, a.quietWithin tSet (t + 300000)) :
    ¬ recoveryTriggered (runActions cfg (loop t tLog tSet s).1 acts).2 ∧
    ∀ t2 tLog2 tSet2 : Nat, tSet ≤ t2 →
      recoveryTriggered
        (loop t2 tLog2 tSet2 (runActions cfg (loop t tLog tSet s).1 acts).1).2 →
      t + 300000 < t2 := by
  have hs : (loop t tLog tSet s).1.lastValidPing = millis tSet := by
    rw [recoveryTriggered_loop_iff] at hfire
    rw [loop_fst, livenessCheck_of_triggered hfire]
  have hrun := quiet_run cfg hclock acts (loop t tLog tSet s).1 hs hquiet
  refine ⟨hrun.1, ?_⟩
  intro t2 tLog2 tSet2 hlo hfire2
  by_contra hc
  have hq : (Action.loop t2 tLog2 tSet2).quietWithin tSet (t + 300000) :=
    ⟨hlo, by omega⟩
  exact (quiet_apply cfg hclock hrun.2 hq).1 hfire2

/-- Witness of C2: on the committed configuration, the check made at 300001 ms triggers; a
ping, an unanswered delivery, a report and the checks made 22 s and 300 s later do not. -/
theorem no_duplicate_trigger_witness :
    ¬ recoveryTriggered (runActions sketchConfig
        (loop 300001 300002 300003 (setupTargets sketchConfig (State.boot sketchConfig)).1).1
        [Action.ping 310000, Action.response 315000 315000 { answer := false, addr := 134744072 },
         Action.loop 322203 322203 322203, Action.report 400000,
         Action.loop 600001 600001 600001]).2 :=
  (no_duplicate_trigger sketchConfig (setupTargets sketchConfig (State.boot sketchConfig)).1
    300001 300002 300003
    [Action.ping 310000, Action.response 315000 315000 { answer := false, addr := 134744072 },
     Action.loop 322203 322203 322203, Action.report 400000,
     Action.loop 600001 600001 600001]
    (by decide) (by decide) (by decide)).1

/-! ## The unreliable flag -/

theorem tdiv_ten_eq_floor {s : Int} (hs : 0 ≤ s) :
    Int.tdiv (UNRELIABLE * s) 10 = ⌊((UNRELIABLE * s : Int) : ℚ) / 10⌋ := by
  have h7 : (0 : Int) ≤ UNRELIABLE * s := by
    unfold UNRELIABLE
    omega
  rw [Int.tdiv_eq_ediv h7 (by decide)]
  have h := Rat.floor_intCast_div_natCast (UNRELIABLE * s) 10
  simpa using h.symm

theorem unreliable_eq_floor (s r : Int) :
    unreliable s r =
      (decide (s > PING_SAMPLE_SIZE) &&
        decide (r < ⌊((UNRELIABLE * s : Int) : ℚ) / 10⌋)) := by
  unfold unreliable
  by_cases hs : s > PING_SAMPLE_SIZE
  · have h0 : (0 : Int) ≤ s := by
      unfold PING_SAMPLE_SIZE at hs
      omega
    rw [tdiv_ten_eq_floor h0]
  · simp [hs]

theorem reportWarnings_append (xs ys : List Event) :
    reportWarnings (xs ++ ys) = reportWarnings xs ++ reportWarnings ys := by
  induction xs with
  | nil => rfl
  | cons e rest ih => cases e <;> simp [reportWarnings, ih]

theorem reportWarnings_lines (cfg : Config) (s : State) (ks : List Nat) :
    reportWarnings (ks.map (reportLine cfg s)) =
      ks.map (fun k => unreliable (s.pingSentCount.getD k 0) (s.pingRcvdCount.getD k 0)) := by
  induction ks with
  | nil => rfl
  | cons k rest ih => simp [reportLine, reportWarnings, ih] at *

theorem reportWarnings_report (cfg : Config) (t : Nat) (s : State) :
    reportWarnings (reportTargetStatus cfg t s).2 =
      (List.range s.targetCount).map
        (fun k => unreliable (s.pingSentCount.getD k 0) (s.pingRcvdCount.getD k 0)) := by
  unfold reportTargetStatus
  by_cases h : s.targetCount < 1
  · have h0 : s.targetCount = 0 := by omega
    simp [h0, reportWarnings]
  · rw [if_neg h]
    simp only [reportWarnings_append, reportWarnings_lines]
    simp [reportWarnings]

/-- C4: the flag computed on line 43 for sent count `s` and received count `r` is
`s > PING_SAMPLE_SIZE` and `r < floor (UNRELIABLE * s / 10)`, with the constants 10 and 7;
the warnings printed by `reportTargetStatus` are these flags of the valid targets, in order;
20 sent and 13 received is unreliable, 20 sent and 14 received is not. -/
theorem unreliable_spec (cfg : Config) (t : Nat) (st : State) (s r : Int) :
    PING_SAMPLE_SIZE = 10 ∧ UNRELIABLE = 7 ∧
    unreliable s r =
      (decide (s > PING_SAMPLE_SIZE) &&
        decide (r < ⌊((UNRELIABLE * s : Int) : ℚ) / 10⌋)) ∧
    reportWarnings (reportTargetStatus cfg t st).2 =
      (List.range st.targetCount).map (fun k =>
        decide (st.pingSentCount.getD k 0 > PING_SAMPLE_SIZE) &&
          decide (st.pingRcvdCount.getD k 0 <
            ⌊((UNRELIABLE * st.pingSentCount.getD k 0 : Int) : ℚ) / 10⌋)) ∧
    unreliable 20 13 = true ∧ unreliable 20 14 = false := by
  refine ⟨rfl, rfl, unreliable_eq_floor s r, ?_, by decide, by decide⟩
  rw [reportWarnings_report]
  apply List.map_congr_left
  intro k _
  exact unreliable_eq_floor _ _

/-- C5: a target with at most `PING_SAMPLE_SIZE` pings sent is never flagged, whatever its
received count; 10 sent and none received is not unreliable, 11 sent and none received is. -/
theorem unreliable_small_sample (s r : Int) :
    (s ≤ PING_SAMPLE_SIZE → unreliable s r = false) ∧
    unreliable 10 0 = false ∧ unreliable 11 0 = true := by
  refine ⟨?_, by decide, by decide⟩
  intro h
  unfold unreliable
  simp [not_lt.mpr h]

/-- Witness of C5: three pings sent, with any received count (here 100), is not flagged. -/
theorem unreliable_small_sample_witness : unreliable 3 100 = false :=
  (unreliable_small_sample 3 100).1 (by decide)

/-- A flagged target does have a response rate under `UNRELIABLE/10`. -/
theorem unreliable_sound {s r : Int} (h : unreliable s r = true) : 10 * r < UNRELIABLE * s := by
  unfold unreliable at h
  simp only [Bool.and_eq_true, decide_eq_true_eq] at h
  obtain ⟨hs, hr⟩ := h
  have h0 : (0 : Int) ≤ UNRELIABLE * s := by
    unfold UNRELIABLE PING_SAMPLE_SIZE at *
    omega
  rw [Int.tdiv_eq_ediv h0 (by decide)] at hr
  unfold UNRELIABLE at *
  omega

/-- C6, evaluated on the code: with 11 pings sent and 7 replies received the sample is large
enough and the response rate 7/11 is less than `UNRELIABLE/10`, yet the flag of line 43 is
false, since `7 < (7 * 11) / 10 = 7` fails in integer arithmetic. -/
theorem unreliable_misses_low_rate :
    (11 : Int) > PING_SAMPLE_SIZE ∧ (0 : Int) ≤ 7 ∧ (7 : Int) ≤ 11 ∧
    ((7 : ℚ) / 11 < (UNRELIABLE : ℚ) / 10) ∧ 10 * (7 : Int) < UNRELIABLE * 11 ∧
    unreliable 11 7 = false := by
  refine ⟨by decide, by decide, by decide, ?_, by decide, by decide⟩
  unfold UNRELIABLE
  norm_num

/-! ## The reply callback -/

theorem find_range_none {p : Nat → Bool} {n : Nat} (h : (List.range n).find? p = none) :
    ∀ m, m < n → p m = false := by
  intro m hm
  have := (List.find?_eq_none.mp h) m (List.mem_range.mpr hm)
  simpa using this

theorem find_range_some {p : Nat → Bool} {n i : Nat}
    (h : (List.range n).find? p = some i) :
    i < n ∧ p i = true ∧ ∀ m, m < i → p m = false := by
  induction n with
  | zero => simp at h
  | succ n ih =>
    rw [List.range_succ, List.find?_append] at h
    cases hfind : (List.range n).find? p with
    | some i0 =>
      rw [hfind] at h
      simp only [Option.or_some, Option.some.injEq] at h
      subst h
      obtain ⟨h1, h2, h3⟩ := ih hfind
      exact ⟨by omega, h2, h3⟩
    | none =>
      rw [hfind] at h
      simp only [Option.none_or, List.find?_cons] at h
      cases hp : p n with
      | true =>
        rw [hp] at h
        simp only [Option.some.injEq] at h
        subst h
        exact ⟨by omega, hp, find_range_none hfind⟩
      | false =>
        rw [hp] at h
        simp at h

theorem findTarget_eq_none {s : State} {addr : IPAddress}
    (h : ∀ j, j < s.targetCount → s.targets.getD j 0 ≠ addr) : findTarget s addr = none := by
  unfold findTarget
  rw [List.find?_eq_none]
  intro x hx
  have := h x (List.mem_range.mp hx)
  simpa using this

theorem findTarget_some {s : State} {addr : IPAddress} {i : Nat}
    (h : findTarget s addr = some i) :
    i < s.targetCount ∧ s.targets.getD i 0 = addr ∧
      ∀ m, m < i → s.targets.getD m 0 ≠ addr := by
  obtain ⟨h1, h2, h3⟩ := find_range_some h
  refine ⟨h1, by simpa using h2, ?_⟩
  intro m hm
  have := h3 m hm
  simpa using this

theorem findTarget_isSome {s : State} {addr : IPAddress} {j : Nat}
    (hj : j < s.targetCount) (hadr : s.targets.getD j 0 = addr) :
    ∃ i, findTarget s addr = some i := by
  cases h : findTarget s addr with
  | some i => exact ⟨i, rfl⟩
  | none =>
    have h1 := find_range_none h j hj
    simp only [beq_eq_false_iff_ne, ne_eq] at h1
    exact absurd hadr h1

/-- A successful reply from an address that is no valid target changes `lastValidPing` and
nothing else, and prints nothing. -/
theorem targetPingerCallback_unknown (cfg : Config) (tLog tSet : Nat)
    (response : AsyncPingResponse) (s : State) (hans : response.answer = true)
    (hnone : ∀ j, j < s.targetCount → s.targets.getD j 0 ≠ response.addr) :
    targetPingerCallback cfg tLog tSet response s =
      ({ s with lastValidPing := millis tSet }, [], true) := by
  unfold targetPingerCallback
  rw [if_pos hans, findTarget_eq_none hnone]

/-- C8 as stated fails on the code: on the committed configuration, right after
`setupTargets` (timestamp 0, only target 8.8.8.8), the callback called with a successful
reply from 1.1.1.1, which is no target, when the clock reads 5000, leaves the counters and the
cursor alone but moves the liveness timestamp from 0 to 5000. -/
theorem targetPingerCallback_unknown_sets_liveness :
    (setupTargets sketchConfig (State.boot sketchConfig)).1.targets = [134744072] ∧
    (setupTargets sketchConfig (State.boot sketchConfig)).1.targetCount = 1 ∧
    (setupTargets sketchConfig (State.boot sketchConfig)).1.lastValidPing = 0 ∧
    (targetPingerCallback sketchConfig 5000 5000 { answer := true, addr := 16843009 }
      (setupTargets sketchConfig (State.boot sketchConfig)).1).1 =
      { (setupTargets sketchConfig (State.boot sketchConfig)).1 with lastValidPing := 5000 } ∧
    (targetPingerCallback sketchConfig 5000 5000 { answer := true, addr := 16843009 }
      (setupTargets sketchConfig (State.boot sketchConfig)).1).1.lastValidPing ≠
      (setupTargets sketchConfig (State.boot sketchConfig)).1.lastValidPing := by
  decide

/-- C8, amended: for every state and every successful reply whose address equals none of
`targets[0..targetCount-1]`, `targetPingerCallback` counts nothing and prints nothing: every
sent count, every received count, the cursor and the registry are unchanged; but the
assignment of line 91, which stands after the search loop, is executed all the same, so
`lastValidPing` becomes the clock reading of that assignment; the callback returns true. -/
theorem unknown_reply_refreshes_liveness (cfg : Config) (tLog tSet : Nat)
    (response : AsyncPingResponse) (s : State) (hans : response.answer = true)
    (hnone : ∀ j, j < s.targetCount → s.targets.getD j 0 ≠ response.addr) :
    (targetPingerCallback cfg tLog tSet response s).1.pingSentCount = s.pingSentCount ∧
    (targetPingerCallback cfg tLog tSet response s).1.pingRcvdCount = s.pingRcvdCount ∧
    (targetPingerCallback cfg tLog tSet response s).1.pingIndex = s.pingIndex ∧
    (targetPingerCallback cfg tLog tSet response s).1.targets = s.targets ∧
    (targetPingerCallback cfg tLog tSet response s).1.hostsIndex = s.hostsIndex ∧
    (targetPingerCallback cfg tLog tSet response s).1.targetCount = s.targetCount ∧
    (targetPingerCallback cfg tLog tSet response s).1.lastValidPing = millis tSet ∧
    (targetPingerCallback cfg tLog tSet response s).1 =
      { s with lastValidPing := millis tSet } ∧
    (targetPingerCallback cfg tLog tSet response s).2.1 = [] ∧
    (targetPingerCallback cfg tLog tSet response s).2.2 = true := by
  rw [targetPingerCallback_unknown cfg tLog tSet response s hans hnone]
  exact ⟨rfl, rfl, rfl, rfl, rfl, rfl, rfl, rfl, rfl, rfl⟩

/-- Witness of C8: one target 8.8.8.8 with 4 pings sent and 3 replies counted, timestamp
1000; a successful reply from 1.1.1.1 at clock reading 5000 leaves the counts at 4 and 3 and
sets the timestamp to 5000. -/
theorem unknown_reply_refreshes_liveness_witness :
    (targetPingerCallback sketchConfig 5000 5000 { answer := true, addr := 16843009 }
      ⟨[134744072], [4], [3], [0], 1, 0, 1000, false, false⟩).1 =
      ⟨[134744072], [4], [3], [0], 1, 0, 5000, false, false⟩ :=
  (unknown_reply_refreshes_liveness sketchConfig 5000 5000
    { answer := true, addr := 16843009 }
    ⟨[134744072], [4], [3], [0], 1, 0, 1000, false, false⟩ rfl (by decide)).2.2.2.2.2.2.2.1

theorem getD_set_self {l : List Int} {i : Nat} (h : i < l.length) (v : Int) :
    (l.set i v).getD i 0 = v := by
  simp [List.getD_eq_getElem?_getD, List.getElem?_set_self h]

theorem getD_set_ne {α : Type} (l : List α) {i k : Nat} (h : i ≠ k) (v d : α) :
    (l.set i v).getD k d = l.getD k d := by
  simp [List.getD_eq_getElem?_getD, List.getElem?_set_ne h]

/-- C9: a successful reply whose address is that of a valid target `j`. The callback finds
the first valid index `i` with that address, adds exactly 1 to `pingRcvdCount[i]`, stores the
clock reading of the assignment in `lastValidPing`, leaves every sent count, every other
received count, the cursor and the registry unchanged, and returns true. -/
theorem targetPingerCallback_match (cfg : Config) (tLog tSet : Nat)
    (response : AsyncPingResponse) (s : State) (j : Nat)
    (hans : response.answer = true) (hj : j < s.targetCount)
    (hsize : s.targetCount ≤ s.pingRcvdCount.length)
    (hadr : s.targets.getD j 0 = response.addr) :
    ∃ i, i ≤ j ∧ s.targets.getD i 0 = response.addr ∧
      (∀ m, m < i → s.targets.getD m 0 ≠ response.addr) ∧
      (targetPingerCallback cfg tLog tSet response s).1.pingRcvdCount.getD i 0 =
        s.pingRcvdCount.getD i 0 + 1 ∧
      (∀ k, k ≠ i →
        (targetPingerCallback cfg tLog tSet response s).1.pingRcvdCount.getD k 0 =
          s.pingRcvdCount.getD k 0) ∧
      (targetPingerCallback cfg tLog tSet response s).1.pingRcvdCount.length =
        s.pingRcvdCount.length ∧
      (targetPingerCallback cfg tLog tSet response s).1.pingSentCount = s.pingSentCount ∧
      (targetPingerCallback cfg tLog tSet response s).1.pingIndex = s.pingIndex ∧
      (targetPingerCallback cfg tLog tSet response s).1.targets = s.targets ∧
      (targetPingerCallback cfg tLog tSet response s).1.targetCount = s.targetCount ∧
      (targetPingerCallback cfg tLog tSet response s).1.lastValidPing = millis tSet ∧
      (targetPingerCallback cfg tLog tSet response s).2.2 = true := by
  obtain ⟨i, hi⟩ := findTarget_isSome hj hadr
  obtain ⟨h1, h2, h3⟩ := findTarget_some hi
  have hij : i ≤ j := by
    by_contra hc
    exact h3 j (by omega) hadr
  refine ⟨i, hij, h2, h3, ?_⟩
  unfold targetPingerCallback
  rw [if_pos hans, hi]
  refine ⟨getD_set_self (by omega) _, ?_, by simp, rfl, rfl, rfl, rfl, rfl, rfl⟩
  intro k hk
  exact getD_set_ne _ (Ne.symm hk) _ _

/-- Witness of C9: two targets with the same address 8.8.8.8, two replies counted for the
first and none for the second; a reply from 8.8.8.8 is counted for the first one only. -/
theorem targetPingerCallback_match_witness :
    ∃ i, i ≤ 1 ∧ [134744072, 134744072].getD i 0 = 134744072 ∧
      (∀ m, m < i → [134744072, 134744072].getD m 0 ≠ 134744072) ∧
      (targetPingerCallback aliasConfig 7 8 { answer := true, addr := 134744072 }
        ⟨[134744072, 134744072], [3, 3], [2, 0], [0, 1], 2, 1, 0, false, false⟩
        ).1.pingRcvdCount.getD i 0 = ([2, 0] : List Int).getD i 0 + 1 ∧
      (∀ k, k ≠ i →
        (targetPingerCallback aliasConfig 7 8 { answer := true, addr := 134744072 }
          ⟨[134744072, 134744072], [3, 3], [2, 0], [0, 1], 2, 1, 0, false, false⟩
          ).1.pingRcvdCount.getD k 0 = ([2, 0] : List Int).getD k 0) ∧
      (targetPingerCallback aliasConfig 7 8 { answer := true, addr := 134744072 }
        ⟨[134744072, 134744072], [3, 3], [2, 0], [0, 1], 2, 1, 0, false, false⟩
        ).1.pingRcvdCount.length = 2 ∧
      (targetPingerCallback aliasConfig 7 8 { answer := true, addr := 134744072 }
        ⟨[134744072, 134744072], [3, 3], [2, 0], [0, 1], 2, 1, 0, false, false⟩
        ).1.pingSentCount = [3, 3] ∧
      (targetPingerCallback aliasConfig 7 8 { answer := true, addr := 134744072 }
        ⟨[134744072, 134744072], [3, 3], [2, 0], [0, 1], 2, 1, 0, false, false⟩
        ).1.pingIndex = 1 ∧
      (targetPingerCallback aliasConfig 7 8 { answer := true, addr := 134744072 }
        ⟨[134744072, 134744072], [3, 3], [2, 0], [0, 1], 2, 1, 0, false, false⟩
        ).1.targets = [134744072, 134744072] ∧
      (targetPingerCallback aliasConfig 7 8 { answer := true, addr := 134744072 }
        ⟨[134744072, 134744072], [3, 3], [2, 0], [0, 1], 2, 1, 0, false, false⟩
        ).1.targetCount = 2 ∧
      (targetPingerCallback aliasConfig 7 8 { answer := true, addr := 134744072 }
        ⟨[134744072, 134744072], [3, 3], [2, 0], [0, 1], 2, 1, 0, false, false⟩
        ).1.lastValidPing = millis 8 ∧
      (targetPingerCallback aliasConfig 7 8 { answer := true, addr := 134744072 }
        ⟨[134744072, 134744072], [3, 3], [2, 0], [0, 1], 2, 1, 0, false, false⟩
        ).2.2 = true :=
  targetPingerCallback_match aliasConfig 7 8 { answer := true, addr := 134744072 }
    ⟨[134744072, 134744072], [3, 3], [2, 0], [0, 1], 2, 1, 0, false, false⟩ 1
    rfl (by decide) (by decide) rfl

/-! ## Reset of the statistics -/

/-- C10: after `resetTargetStatus` every entry of `pingSentCount` and of `pingRcvdCount` is 0
(the arrays keep their size) and the cursor `pingIndex` is 0; the registry, the timestamp and
the pins are untouched. -/
theorem resetTargetStatus_spec (s : State) :
    (∀ x ∈ (resetTargetStatus s).pingSentCount, x = 0) ∧
    (∀ x ∈ (resetTargetStatus s).pingRcvdCount, x = 0) ∧
    (resetTargetStatus s).pingSentCount.length = s.pingSentCount.length ∧
    (resetTargetStatus s).pingRcvdCount.length = s.pingRcvdCount.length ∧
    (resetTargetStatus s).pingIndex = 0 ∧
    resetTargetStatus s =
      { s with
        pingIndex := (resetTargetStatus s).pingIndex
        pingSentCount := (resetTargetStatus s).pingSentCount
        pingRcvdCount := (resetTargetStatus s).pingRcvdCount } := by
  refine ⟨?_, ?_, by simp [resetTargetStatus], by simp [resetTargetStatus], rfl, rfl⟩
  · intro x hx
    exact List.eq_of_mem_replicate hx
  · intro x hx
    exact List.eq_of_mem_replicate hx

/-- Witness of C10: counters 90001/5 and 42/0 with the cursor on the second target are all
cleared and the cursor returns to the first target. -/
theorem resetTargetStatus_spec_witness :
    (resetTargetStatus
      ⟨[134744072, 16843009], [90001, 5], [42, 0], [0, 1], 2, 1, 77, false, false⟩).pingIndex
      = 0 ∧
    (∀ x ∈ (resetTargetStatus
      ⟨[134744072, 16843009], [90001, 5], [42, 0], [0, 1], 2, 1, 77, false, false⟩
      ).pingSentCount, x = 0) ∧
    (∀ x ∈ (resetTargetStatus
      ⟨[134744072, 16843009], [90001, 5], [42, 0], [0, 1], 2, 1, 77, false, false⟩
      ).pingRcvdCount, x = 0) :=
  ⟨(resetTargetStatus_spec
      ⟨[134744072, 16843009], [90001, 5], [42, 0], [0, 1], 2, 1, 77, false, false⟩).2.2.2.2.1,
    (resetTargetStatus_spec
      ⟨[134744072, 16843009], [90001, 5], [42, 0], [0, 1], 2, 1, 77, false, false⟩).1,
    (resetTargetStatus_spec
      ⟨[134744072, 16843009], [90001, 5], [42, 0], [0, 1], 2, 1, 77, false, false⟩).2.1⟩

/-! ## Round-robin dispatch -/

theorem echoRequests_append (xs ys : List Event) :
    echoRequests (xs ++ ys) = echoRequests xs ++ echoRequests ys := by
  induction xs with
  | nil => rfl
  | cons e rest ih => cases e <;> simp [echoRequests, ih]

/-- The state in which `sendTargetPing` dispatches: the cursor is the one of the caller, since
the reset is made only when the cursor is already 0. -/
theorem sendTargetPing_cursor (s : State) :
    (if resetDue s then resetTargetStatus s else s).pingIndex = s.pingIndex ∧
    (if resetDue s then resetTargetStatus s else s).targets = s.targets ∧
    (if resetDue s then resetTargetStatus s else s).targetCount = s.targetCount ∧
    (if resetDue s then resetTargetStatus s else s).hostsIndex = s.hostsIndex ∧
    (if resetDue s then resetTargetStatus s else s).lastValidPing = s.lastValidPing := by
  by_cases h : resetDue s = true
  · have h0 : s.pingIndex = 0 := by
      unfold resetDue at h
      simp only [Bool.and_eq_true, decide_eq_true_eq] at h
      exact h.1
    simp [h, resetTargetStatus, h0]
  · simp [h]

theorem sendTargetPing_dispatch (cfg : Config) (t : Nat) (s : State)
    (hn : 1 ≤ s.targetCount) :
    (sendTargetPing cfg t s).1.pingIndex = (s.pingIndex + 1) % s.targetCount ∧
    (sendTargetPing cfg t s).1.targets = s.targets ∧
    (sendTargetPing cfg t s).1.targetCount = s.targetCount ∧
    echoRequests (sendTargetPing cfg t s).2 = [(s.targets.getD s.pingIndex 0, 1, 5000)] := by
  obtain ⟨h1, h2, h3, _, _⟩ := sendTargetPing_cursor s
  have hlt : ¬ s.targetCount < 1 := by omega
  unfold sendTargetPing
  rw [if_neg hlt]
  simp only [echoRequests]
  rw [h1, h2, h3]
  exact ⟨rfl, rfl, rfl, rfl⟩

theorem round_robin_run (cfg : Config) (ts : List Nat) :
    ∀ s : State, 1 ≤ s.targetCount → s.pingIndex < s.targetCount →
      (runActions cfg s (ts.map Action.ping)).1.targets = s.targets ∧
      (runActions cfg s (ts.map Action.ping)).1.targetCount = s.targetCount ∧
      (runActions cfg s (ts.map Action.ping)).1.pingIndex =
        (s.pingIndex + ts.length) % s.targetCount ∧
      echoRequests (runActions cfg s (ts.map Action.ping)).2 =
        (List.range ts.length).map
          (fun i => (s.targets.getD ((s.pingIndex + i) % s.targetCount) 0, 1, 5000)) := by
  induction ts with
  | nil =>
    intro s _ hc
    simp [runActions, echoRequests, Nat.mod_eq_of_lt hc]
  | cons t rest ih =>
    intro s hn hc
    obtain ⟨d1, d2, d3, d4⟩ := sendTargetPing_dispatch cfg t s hn
    have hc1 : (sendTargetPing cfg t s).1.pingIndex < (sendTargetPing cfg t s).1.targetCount := by
      rw [d1, d3]
      exact Nat.mod_lt _ (by omega)
    obtain ⟨i1, i2, i3, i4⟩ := ih (sendTargetPing cfg t s).1 (by rw [d3]; exact hn) hc1
    simp only [List.map_cons, runActions, Action.apply, List.length_cons]
    refine ⟨by rw [i1, d2], by rw [i2, d3], ?_, ?_⟩
    · rw [i3, d1, d3, Nat.mod_add_mod]
      congr 1
      omega
    · rw [echoRequests_append, d4, i4, d1, d2, d3, List.range_succ_eq_map, List.map_cons,
        List.map_map]
      simp only [List.singleton_append, Nat.add_zero, Nat.mod_eq_of_lt hc]
      congr 1
      apply List.map_congr_left
      intro i _
      simp only [Function.comp, Nat.succ_eq_add_one, Nat.mod_add_mod]
      congr 3
      omega

theorem cycle_indices_eq_rotate (n c : Nat) :
    (List.range n).map (fun i => (c + i) % n) = (List.range n).rotate c := by
  apply List.ext_getElem
  · simp
  · intro k h1 h2
    rw [List.getElem_rotate]
    simp [Nat.add_comm]

/-- C7: with `n = targetCount ≥ 1` valid targets and the cursor at `c < n`, `n` consecutive
calls of `sendTargetPing` (made at any uptimes `ts`) issue exactly `n` echo requests, to the
targets of index `c`, `(c+1) mod n`, ..., `(c+n-1) mod n` in that order, each with 1 probe and
a timeout of 5000 ms; these indices are a rearrangement of `0, ..., n-1`, so every valid target
is pinged exactly once; and the cursor is back at `c`. -/
theorem round_robin_cycle (cfg : Config) (s : State) (ts : List Nat)
    (hn : 1 ≤ s.targetCount) (hc : s.pingIndex < s.targetCount)
    (hlen : ts.length = s.targetCount) :
    echoRequests (runActions cfg s (ts.map Action.ping)).2 =
      ((List.range s.targetCount).map (fun i => (s.pingIndex + i) % s.targetCount)).map
        (fun k => (s.targets.getD k 0, 1, 5000)) ∧
    (echoRequests (runActions cfg s (ts.map Action.ping)).2).length = s.targetCount ∧
    ((List.range s.targetCount).map (fun i => (s.pingIndex + i) % s.targetCount)).Perm
      (List.range s.targetCount) ∧
    (s.pingIndex = 0 →
      echoRequests (runActions cfg s (ts.map Action.ping)).2 =
        (List.range s.targetCount).map (fun k => (s.targets.getD k 0, 1, 5000))) ∧
    (runActions cfg s (ts.map Action.ping)).1.pingIndex = s.pingIndex ∧
    (runActions cfg s (ts.map Action.ping)).1.targets = s.targets ∧
    (runActions cfg s (ts.map Action.ping)).1.targetCount = s.targetCount := by
  obtain ⟨r1, r2, r3, r4⟩ := round_robin_run cfg ts s hn hc
  rw [hlen] at r3 r4
  have hreq : echoRequests (runActions cfg s (ts.map Action.ping)).2 =
      ((List.range s.targetCount).map (fun i => (s.pingIndex + i) % s.targetCount)).map
        (fun k => (s.targets.getD k 0, 1, 5000)) := by
    rw [r4, List.map_map]
    rfl
  refine ⟨hreq, ?_, ?_, ?_, ?_, r1, r2⟩
  · rw [r4]
    simp
  · rw [cycle_indices_eq_rotate]
    exact List.rotate_perm _ _
  · intro h0
    rw [r4, h0]
    apply List.map_congr_left
    intro i hi
    have hi2 : i < s.targetCount := List.mem_range.mp hi
    simp [Nat.mod_eq_of_lt hi2]
  · rw [r3, Nat.add_mod_right, Nat.mod_eq_of_lt hc]

/-- Witness of C7: three targets, cursor on the second one, sent count of the first target
above `RESET_COUNTER` (so that the second call resets the statistics): the three calls ping
the second, the third and the first target, and the cursor is back on the second. -/
theorem round_robin_cycle_witness :
    echoRequests (runActions trioConfig
      ⟨[11, 22, 33], [90001, 90000, 90000], [5, 5, 5], [0, 1, 2], 3, 1, 0, false, false⟩
      ([100, 200, 300].map Action.ping)).2 = [(22, 1, 5000), (33, 1, 5000), (11, 1, 5000)] ∧
    (runActions trioConfig
      ⟨[11, 22, 33], [90001, 90000, 90000], [5, 5, 5], [0, 1, 2], 3, 1, 0, false, false⟩
      ([100, 200, 300].map Action.ping)).1.pingIndex = 1 :=
  ⟨(round_robin_cycle trioConfig
      ⟨[11, 22, 33], [90001, 90000, 90000], [5, 5, 5], [0, 1, 2], 3, 1, 0, false, false⟩
      [100, 200, 300] (by decide) (by decide) rfl).1,
   (round_robin_cycle trioConfig
      ⟨[11, 22, 33], [90001, 90000, 90000], [5, 5, 5], [0, 1, 2], 3, 1, 0, false, false⟩
      [100, 200, 300] (by decide) (by decide) rfl).2.2.2.2.1⟩

/-! ## Received counts against sent counts -/

theorem getD_replicate_zero (n k : Nat) : (List.replicate n (0 : Int)).getD k 0 = 0 := by
  simp only [List.getD_eq_getElem?_getD, List.getElem?_replicate]
  split <;> rfl

theorem Tracked.Inv.reset {y : Tracked} (h : y.Inv) : Tracked.Inv ⟨resetTargetStatus y.st, []⟩ where
  sentSize := by simpa [resetTargetStatus] using h.sentSize
  rcvdSize := by simpa [resetTargetStatus] using h.rcvdSize
  cursor := by
    intro hn
    simpa [resetTargetStatus] using hn
  distinct := h.distinct
  known := by simp
  budget := by
    intro k _
    simp [resetTargetStatus, getD_replicate_zero]

theorem Tracked.Inv.dispatch {y : Tracked} (h : y.Inv) (hn : 1 ≤ y.st.targetCount) :
    Tracked.Inv
      ⟨{ y.st with
          pingSentCount := y.st.pingSentCount.set y.st.pingIndex
            (y.st.pingSentCount.getD y.st.pingIndex 0 + 1)
          pingIndex := (y.st.pingIndex + 1) % y.st.targetCount },
        y.inFlight ++ [y.st.targets.getD y.st.pingIndex 0]⟩ where
  sentSize := by simpa using h.sentSize
  rcvdSize := h.rcvdSize
  cursor := fun _ => Nat.mod_lt _ (by omega)
  distinct := h.distinct
  known := by
    intro a ha
    rcases List.mem_append.mp ha with h1 | h1
    · exact h.known a h1
    · rw [List.mem_singleton] at h1
      exact ⟨y.st.pingIndex, h.cursor hn, h1.symm⟩
  budget := by
    intro k hk
    have hb := h.budget k hk
    have hc := h.cursor hn
    have hsz := h.sentSize
    show y.st.pingRcvdCount.getD k 0 +
        ((y.inFlight ++ [y.st.targets.getD y.st.pingIndex 0]).count
          (y.st.targets.getD k 0) : Int) ≤
      (y.st.pingSentCount.set y.st.pingIndex
        (y.st.pingSentCount.getD y.st.pingIndex 0 + 1)).getD k 0
    rw [List.count_append]
    by_cases hkc : k = y.st.pingIndex
    · subst hkc
      rw [getD_set_self (by omega)]
      simp only [List.count_singleton_self]
      push_cast
      omega
    · rw [getD_set_ne _ (Ne.symm hkc)]
      have hne : y.st.targets.getD y.st.pingIndex 0 ≠ y.st.targets.getD k 0 := by
        intro he
        exact hkc (h.distinct k hk y.st.pingIndex hc he.symm)
      have h0 : [y.st.targets.getD y.st.pingIndex 0].count (y.st.targets.getD k 0) = 0 := by
        rw [List.count_eq_zero]
        simpa using hne.symm
      rw [h0]
      simpa using hb

theorem Tracked.Inv.reply {y : Tracked} (h : y.Inv) (cfg : Config) (tLog tSet : Nat)
    (r : AsyncPingResponse) (hans : r.answer = true) (hmem : r.addr ∈ y.inFlight) :
    Tracked.Inv ⟨(targetPingerCallback cfg tLog tSet r y.st).1, y.inFlight.erase r.addr⟩ := by
  obtain ⟨k, hk, hka⟩ := h.known _ hmem
  obtain ⟨i, hi⟩ := findTarget_isSome hk hka
  obtain ⟨hi1, hi2, _⟩ := findTarget_some hi
  have hst : (targetPingerCallback cfg tLog tSet r y.st).1 =
      { y.st with
        pingRcvdCount := y.st.pingRcvdCount.set i (y.st.pingRcvdCount.getD i 0 + 1)
        lastValidPing := millis tSet } := by
    unfold targetPingerCallback
    rw [if_pos hans, hi]
  rw [hst]
  refine ⟨h.sentSize, by simpa using h.rcvdSize, h.cursor, h.distinct, ?_, ?_⟩
  · intro a ha
    exact h.known a (List.mem_of_mem_erase ha)
  · intro m hm
    have hb := h.budget m hm
    have hsz := h.rcvdSize
    show (y.st.pingRcvdCount.set i (y.st.pingRcvdCount.getD i 0 + 1)).getD m 0 +
        ((y.inFlight.erase r.addr).count (y.st.targets.getD m 0) : Int) ≤
      y.st.pingSentCount.getD m 0
    by_cases hmi : m = i
    · subst hmi
      rw [getD_set_self (by omega), hi2, List.count_erase_self]
      have h1 : 1 ≤ y.inFlight.count r.addr := List.one_le_count_iff.mpr hmem
      rw [hi2] at hb
      omega
    · rw [getD_set_ne _ (Ne.symm hmi)]
      have hne : y.st.targets.getD m 0 ≠ r.addr := by
        intro he
        exact hmi (h.distinct m hm i hi1 (he.trans hi2.symm))
      rw [List.count_erase_of_ne hne]
      exact hb

theorem Tracked.Inv.of_same {y : Tracked} (h : y.Inv) {s : State}
    (h1 : s.targets = y.st.targets) (h2 : s.pingSentCount = y.st.pingSentCount)
    (h3 : s.pingRcvdCount = y.st.pingRcvdCount) (h4 : s.targetCount = y.st.targetCount)
    (h5 : s.pingIndex = y.st.pingIndex) : Tracked.Inv ⟨s, y.inFlight⟩ where
  sentSize := by
    show s.targetCount ≤ s.pingSentCount.length
    rw [h4, h2]
    exact h.sentSize
  rcvdSize := by
    show s.targetCount ≤ s.pingRcvdCount.length
    rw [h4, h3]
    exact h.rcvdSize
  cursor := by
    show 1 ≤ s.targetCount → s.pingIndex < s.targetCount
    rw [h4, h5]
    exact h.cursor
  distinct := by
    show distinctTargets s
    unfold distinctTargets
    rw [h4, h1]
    exact h.distinct
  known := by
    show ∀ a ∈ y.inFlight, ∃ k, k < s.targetCount ∧ s.targets.getD k 0 = a
    rw [h4, h1]
    exact h.known
  budget := by
    show ∀ k, k < s.targetCount →
      s.pingRcvdCount.getD k 0 + (y.inFlight.count (s.targets.getD k 0) : Int)
        ≤ s.pingSentCount.getD k 0
    rw [h4, h3, h2, h1]
    exact h.budget

theorem livenessCheck_counters (t tLog tSet : Nat) (s : State) :
    (livenessCheck t tLog tSet s).1.targets = s.targets ∧
    (livenessCheck t tLog tSet s).1.pingSentCount = s.pingSentCount ∧
    (livenessCheck t tLog tSet s).1.pingRcvdCount = s.pingRcvdCount ∧
    (livenessCheck t tLog tSet s).1.targetCount = s.targetCount ∧
    (livenessCheck t tLog tSet s).1.pingIndex = s.pingIndex := by
  unfold livenessCheck
  split <;> exact ⟨rfl, rfl, rfl, rfl, rfl⟩

/-- Every activity allowed by the reply discipline keeps the invariant. -/
theorem Tracked.Inv.step {cfg : Config} {y z : Tracked} (h : y.Inv) (a : Action)
    (hstep : y.step cfg true a = some z) : z.Inv := by
  cases a with
  | ping t =>
    simp only [Tracked.step, Action.apply, Option.some.injEq] at hstep
    subst hstep
    by_cases hn : y.st.targetCount < 1
    · have hd : decide (1 ≤ y.st.targetCount) = false := by
        simp only [decide_eq_false_iff_not]
        omega
      simp only [sendTargetPing, if_pos hn, hd, echoRequests]
      simpa using h
    · have hn1 : 1 ≤ y.st.targetCount := by omega
      have hd : decide (1 ≤ y.st.targetCount) = true := by simpa using hn1
      by_cases hr : resetDue y.st = true
      · have hx := (h.reset).dispatch hn1
        simpa [sendTargetPing, hn, hd, hr, echoRequests] using hx
      · have hx := h.dispatch hn1
        simpa [sendTargetPing, hn, hd, hr, echoRequests] using hx
  | report t =>
    simp only [Tracked.step, Action.apply, Option.some.injEq] at hstep
    subst hstep
    unfold reportTargetStatus
    split <;> exact h
  | reset =>
    simp only [Tracked.step, Action.apply, Option.some.injEq, if_true] at hstep
    subst hstep
    exact h.reset
  | response tLog tSet r =>
    simp only [Tracked.step, Action.apply] at hstep
    by_cases hans : r.answer = true
    · rw [if_pos hans] at hstep
      by_cases hmem : r.addr ∈ y.inFlight
      · rw [if_pos hmem, Option.some.injEq] at hstep
        subst hstep
        exact h.reply cfg tLog tSet r hans hmem
      · rw [if_neg hmem] at hstep
        cases hstep
    · rw [if_neg hans, Option.some.injEq] at hstep
      subst hstep
      simp only [targetPingerCallback, if_neg hans]
      exact h
  | loop t tLog tSet =>
    simp only [Tracked.step, Action.apply, Option.some.injEq] at hstep
    subst hstep
    obtain ⟨c1, c2, c3, c4, c5⟩ := livenessCheck_counters t tLog tSet y.st
    rw [loop_fst]
    exact h.of_same c1 c2 c3 c4 c5

theorem Tracked.Inv.run {cfg : Config} (acts : List Action) :
    ∀ {y z : Tracked}, y.Inv → Tracked.run cfg true y acts = some z → z.Inv := by
  induction acts with
  | nil =>
    intro y z h hrun
    simp only [Tracked.run, Option.some.injEq] at hrun
    subst hrun
    exact h
  | cons a rest ih =>
    intro y z h hrun
    simp only [Tracked.run] at hrun
    cases hs : y.step cfg true a with
    | none =>
      rw [hs] at hrun
      cases hrun
    | some w =>
      rw [hs] at hrun
      exact ih (h.step a hs) hrun

theorem setupTargets_fold_sizes (cfg : Config) (l : List Nat) :
    ∀ acc : State × List Event,
      (l.foldl (setupTargetsStep cfg) acc).1.targetCount ≤ acc.1.targetCount + l.length ∧
      (l.foldl (setupTargetsStep cfg) acc).1.pingSentCount = acc.1.pingSentCount ∧
      (l.foldl (setupTargetsStep cfg) acc).1.pingRcvdCount = acc.1.pingRcvdCount := by
  induction l with
  | nil =>
    intro acc
    exact ⟨by simp, rfl, rfl⟩
  | cons i rest ih =>
    intro acc
    obtain ⟨h1, h2, h3⟩ := ih (setupTargetsStep cfg acc i)
    simp only [List.foldl_cons, List.length_cons]
    have hstep : (setupTargetsStep cfg acc i).1.targetCount ≤ acc.1.targetCount + 1 ∧
        (setupTargetsStep cfg acc i).1.pingSentCount = acc.1.pingSentCount ∧
        (setupTargetsStep cfg acc i).1.pingRcvdCount = acc.1.pingRcvdCount := by
      unfold setupTargetsStep
      split
      · exact ⟨by simp, rfl, rfl⟩
      · exact ⟨by simp, rfl, rfl⟩
    refine ⟨by omega, ?_, ?_⟩
    · rw [h2, hstep.2.1]
    · rw [h3, hstep.2.2]

/-- After `setupTargets`, run on arrays of `TARGET_COUNT` entries: at most `TARGET_COUNT` valid
targets, all counters zero, cursor on the first target. -/
theorem setupTargets_counters (cfg : Config) (s0 : State) (hsized : s0.Sized cfg) :
    (setupTargets cfg s0).1.targetCount ≤ cfg.TARGET_COUNT ∧
    (setupTargets cfg s0).1.pingSentCount = List.replicate cfg.TARGET_COUNT 0 ∧
    (setupTargets cfg s0).1.pingRcvdCount = List.replicate cfg.TARGET_COUNT 0 ∧
    (setupTargets cfg s0).1.pingIndex = 0 := by
  obtain ⟨_, hs, hr, _⟩ := hsized
  obtain ⟨h1, h2, h3⟩ := setupTargets_fold_sizes cfg (List.range cfg.TARGET_COUNT)
    ({ s0 with targetCount := 0 }, [])
  simp only [List.length_range, Nat.zero_add] at h1
  refine ⟨h1, ?_, ?_, rfl⟩
  · show List.replicate _ 0 = _
    rw [h2]
    exact congrArg (fun n => List.replicate n (0 : Int)) hs
  · show List.replicate _ 0 = _
    rw [h3]
    exact congrArg (fun n => List.replicate n (0 : Int)) hr

theorem Tracked.Inv.afterSetup (cfg : Config) (s0 : State) (hsized : s0.Sized cfg)
    (hdistinct : distinctTargets (setupTargets cfg s0).1) :
    (Tracked.afterSetup cfg s0).Inv := by
  obtain ⟨h1, h2, h3, h4⟩ := setupTargets_counters cfg s0 hsized
  refine ⟨?_, ?_, ?_, hdistinct, ?_, ?_⟩
  · show (setupTargets cfg s0).1.targetCount ≤ (setupTargets cfg s0).1.pingSentCount.length
    rw [h2]
    simpa using h1
  · show (setupTargets cfg s0).1.targetCount ≤ (setupTargets cfg s0).1.pingRcvdCount.length
    rw [h3]
    simpa using h1
  · intro hn
    show (setupTargets cfg s0).1.pingIndex < (setupTargets cfg s0).1.targetCount
    rw [h4]
    exact hn
  · intro a ha
    cases ha
  · intro k _
    show (setupTargets cfg s0).1.pingRcvdCount.getD k 0 +
        (([] : List IPAddress).count ((setupTargets cfg s0).1.targets.getD k 0) : Int) ≤
      (setupTargets cfg s0).1.pingSentCount.getD k 0
    rw [h2, h3]
    simp [getD_replicate_zero]

/-- C3 as stated fails on the code. First run, committed configuration: a ping is sent to
8.8.8.8, the statistics are reset, then the reply to that ping is delivered; the target ends
with 1 reply received and 0 pings sent. Second run, two host names resolved to the same
address: each of the two targets is pinged once and answers once, and both replies are counted
for the first target, which ends with 2 replies received and 1 ping sent. Every reply of both
runs answers a ping dispatched before it and carries the address of the pinged target. -/
theorem rcvd_exceeds_sent :
    (∃ y, Tracked.run sketchConfig false
        (Tracked.afterSetup sketchConfig (State.boot sketchConfig))
        [Action.ping 10000, Action.reset,
         Action.response 10050 10050 { answer := true, addr := 134744072 }] = some y ∧
      ¬ rcvdLeSent y.st) ∧
    (∃ y, Tracked.run aliasConfig false
        (Tracked.afterSetup aliasConfig (State.boot aliasConfig))
        [Action.ping 10000,
         Action.response 10050 10050 { answer := true, addr := 134744072 },
         Action.ping 20000,
         Action.response 20050 20050 { answer := true, addr := 134744072 }] = some y ∧
      ¬ rcvdLeSent y.st) := by
  refine ⟨⟨⟨⟨[134744072], [0], [1], [0], 1, 0, 10050, false, false⟩, []⟩, by decide, ?_⟩,
    ⟨⟨⟨[134744072, 134744072], [1, 1], [2, 0], [0, 1], 2, 0, 20050, false, false⟩, []⟩,
      by decide, ?_⟩⟩
  · intro h
    exact absurd (h 0 (by decide)) (by decide)
  · intro h
    exact absurd (h 0 (by decide)) (by decide)

/-- C3, amended: start from `setupTargets` run on arrays of `TARGET_COUNT` entries and let the
valid targets have pairwise distinct addresses. Along every sequence of pings, resets,
reports, loop iterations and deliveries to `targetPingerCallback` in which each successful
reply carries the address of a ping dispatched earlier, since the last reset of the
statistics, and not answered yet, every valid target `k` has
`pingRcvdCount[k] ≤ pingSentCount[k]`. -/
theorem rcvd_le_sent (cfg : Config) (s0 : State) (acts : List Action) (y : Tracked)
    (hsized : s0.Sized cfg)
    (hdistinct : distinctTargets (setupTargets cfg s0).1)
    (hrun : Tracked.run cfg true (Tracked.afterSetup cfg s0) acts = some y) :
    rcvdLeSent y.st := by
  have hinv : y.Inv := Tracked.Inv.run acts (Tracked.Inv.afterSetup cfg s0 hsized hdistinct) hrun
  intro k hk
  have hb := hinv.budget k hk
  have h0 : (0 : Int) ≤ (y.inFlight.count (y.st.targets.getD k 0) : Int) := Int.natCast_nonneg _
  omega

/-- Witness of C3: on the committed configuration, two pings of which the first is answered,
a reset, a third ping and its reply: the target ends with 1 reply received for 1 ping sent. -/
theorem rcvd_le_sent_witness :
    rcvdLeSent
      (⟨⟨[134744072], [1], [1], [0], 1, 0, 30050, false, false⟩, []⟩ : Tracked).st :=
  rcvd_le_sent sketchConfig (State.boot sketchConfig)
    [Action.ping 10000, Action.response 10050 10050 { answer := true, addr := 134744072 },
     Action.ping 20000, Action.reset, Action.ping 30000,
     Action.response 30050 30050 { answer := true, addr := 134744072 }]
    ⟨⟨[134744072], [1], [1], [0], 1, 0, 30050, false, false⟩, []⟩
    (by decide) (by decide) (by decide)

/-! ## No valid target -/

/-- C13: with no valid target, `sendTargetPing` and `reportTargetStatus` return at once: the
state (counters, cursor, timestamp) is unchanged, nothing is printed, no echo request is
issued, and the `%` of line 77 is not reached; whenever it is reached its divisor is at least
1. The liveness check of `loop` does not look at the registry: it triggers under the same
condition as always. -/
theorem no_target_noop (cfg : Config) (t tLog tSet : Nat) (s : State) :
    (s.targetCount = 0 →
      sendTargetPing cfg t s = (s, []) ∧ reportTargetStatus cfg t s = (s, []) ∧
      sendTargetPingDivisor s = none ∧
      (recoveryTriggered (loop t tLog tSet s).2 ↔
        300000 < subU32 (millis t) s.lastValidPing)) ∧
    (∀ d, sendTargetPingDivisor s = some d → 1 ≤ d) := by
  constructor
  · intro h0
    have hlt : s.targetCount < 1 := by omega
    refine ⟨?_, ?_, ?_, ?_⟩
    · unfold sendTargetPing
      rw [if_pos hlt]
    · unfold reportTargetStatus
      rw [if_pos hlt]
    · unfold sendTargetPingDivisor
      rw [if_pos hlt]
    · rw [recoveryTriggered_loop_iff, livenessCheck_triggered_iff]
  · intro d hd
    unfold sendTargetPingDivisor at hd
    by_cases hlt : s.targetCount < 1
    · rw [if_pos hlt] at hd
      cases hd
    · rw [if_neg hlt, (sendTargetPing_cursor s).2.2.1] at hd
      simp only [Option.some.injEq] at hd
      omega

/-- Witness of C13: the power-up state of the committed configuration has no valid target;
a ping tick and a report tick leave it alone and output nothing, while the loop iteration made
at 300001 ms still triggers the recovery action. -/
theorem no_target_noop_witness :
    sendTargetPing sketchConfig 10000 (State.boot sketchConfig)
      = (State.boot sketchConfig, []) ∧
    reportTargetStatus sketchConfig 120000 (State.boot sketchConfig)
      = (State.boot sketchConfig, []) ∧
    recoveryTriggered (loop 300001 300001 300001 (State.boot sketchConfig)).2 :=
  ⟨((no_target_noop sketchConfig 10000 0 0 (State.boot sketchConfig)).1 rfl).1,
   ((no_target_noop sketchConfig 120000 0 0 (State.boot sketchConfig)).1 rfl).2.1,
   ((no_target_noop sketchConfig 300001 300001 300001 (State.boot sketchConfig)).1
      rfl).2.2.2.mpr (by decide)⟩

/-! ## The relay pulse -/

theorem relayWrites_append (xs ys : List Event) :
    relayWrites (xs ++ ys) = relayWrites xs ++ relayWrites ys := by
  induction xs with
  | nil => rfl
  | cons e rest ih =>
    cases e with
    | digitalWrite p b => cases p <;> simp [relayWrites, ih]
    | _ => simp [relayWrites, ih]

theorem relayWrites_blinkLED (s : State) : relayWrites (blinkLED s).2 = [] := by
  simp [blinkLED, blinkOnce, relayWrites]

theorem relayWrites_loop (t tLog tSet : Nat) (s : State) :
    relayWrites (loop t tLog tSet s).2 = relayWrites (livenessCheck t tLog tSet s).2 := by
  simp [loop, relayWrites_append, relayWrites_blinkLED, relayWrites]

theorem livenessCheck_events_of_triggered {t tLog tSet : Nat} {s : State}
    (h : recoveryTriggered (livenessCheck t tLog tSet s).2) :
    (livenessCheck t tLog tSet s).2 =
      [Event.logPingFailed (millis tLog) INTERNET_LOST,
       Event.digitalWrite Pin.RELAY_PIN true,
       Event.delay 20000,
       Event.digitalWrite Pin.RELAY_PIN false] := by
  have h1 : subU32 (millis t) s.lastValidPing > INTERNET_LOST * 1000 := by
    rw [livenessCheck_triggered_iff] at h
    unfold INTERNET_LOST
    omega
  unfold livenessCheck
  rw [if_pos h1]

/-- Of all activities, only an iteration of `loop` that detects loss writes the relay. -/
theorem relayWrites_apply (cfg : Config) (s : State) (a : Action) :
    relayWrites (a.apply cfg s).2 = [] ∨
      ∃ t tLog tSet, a = Action.loop t tLog tSet ∧
        recoveryTriggered (loop t tLog tSet s).2 := by
  cases a with
  | ping t =>
    left
    simp only [Action.apply, sendTargetPing]
    split <;> simp [relayWrites]
  | report t =>
    left
    simp only [Action.apply, reportTargetStatus]
    split
    · rfl
    · simp only [relayWrites_append]
      have hl : ∀ ks : List Nat, relayWrites (ks.map (reportLine cfg s)) = [] := by
        intro ks
        induction ks with
        | nil => rfl
        | cons k rest ih => simpa [reportLine, relayWrites] using ih
      rw [hl]
      simp [relayWrites]
  | reset =>
    left
    rfl
  | response tLog tSet r =>
    left
    simp only [Action.apply, targetPingerCallback]
    split
    · split <;> simp [relayWrites]
    · rfl
  | loop t tLog tSet =>
    by_cases h : recoveryTriggered (loop t tLog tSet s).2
    · exact Or.inr ⟨t, tLog, tSet, rfl, h⟩
    · left
      rw [recoveryTriggered_loop_iff] at h
      simp only [Action.apply]
      rw [relayWrites_loop, livenessCheck_of_not_triggered h]
      rfl

/-- No activity ends with the relay asserted unless it started with the relay asserted. -/
theorem relayPin_apply (cfg : Config) (s : State) (a : Action) (h : s.relayPin = false) :
    (a.apply cfg s).1.relayPin = false := by
  cases a with
  | ping t =>
    simp only [Action.apply, sendTargetPing]
    split
    · exact h
    · show (if resetDue s then resetTargetStatus s else s).relayPin = false
      split
      · exact h
      · exact h
  | report t =>
    simp only [Action.apply, reportTargetStatus]
    split <;> exact h
  | reset => exact h
  | response tLog tSet r =>
    simp only [Action.apply, targetPingerCallback]
    split
    · split <;> exact h
    · exact h
  | loop t tLog tSet =>
    simp only [Action.apply]
    rw [loop_fst]
    unfold livenessCheck
    split
    · rfl
    · exact h

/-- C14: a liveness check that detects loss prints the alert, writes the relay HIGH, blocks
for 20000 ms and writes the relay LOW, and does nothing else, so the relay writes of the
iteration are HIGH then LOW, once each, and the relay ends released; an iteration that does
not detect loss makes no relay write. An iteration started with the relay released ends with
the relay released; and no other activity of the sketch writes the relay or changes its
level. -/
theorem relay_pulse (cfg : Config) (t tLog tSet : Nat) (s : State) (a : Action) :
    (recoveryTriggered (loop t tLog tSet s).2 →
      (livenessCheck t tLog tSet s).2 =
        [Event.logPingFailed (millis tLog) INTERNET_LOST,
         Event.digitalWrite Pin.RELAY_PIN true,
         Event.delay 20000,
         Event.digitalWrite Pin.RELAY_PIN false] ∧
      relayWrites (loop t tLog tSet s).2 = [true, false] ∧
      (loop t tLog tSet s).1.relayPin = false) ∧
    (¬ recoveryTriggered (loop t tLog tSet s).2 →
      relayWrites (loop t tLog tSet s).2 = [] ∧
      (loop t tLog tSet s).1.relayPin = s.relayPin) ∧
    (s.relayPin = false → (loop t tLog tSet s).1.relayPin = false) ∧
    (relayWrites (a.apply cfg s).2 = [] ∨
      ∃ u uLog uSet, a = Action.loop u uLog uSet ∧
        recoveryTriggered (loop u uLog uSet s).2) ∧
    (s.relayPin = false → (a.apply cfg s).1.relayPin = false) := by
  refine ⟨?_, ?_, ?_, relayWrites_apply cfg s a, relayPin_apply cfg s a⟩
  · intro h
    rw [recoveryTriggered_loop_iff] at h
    refine ⟨livenessCheck_events_of_triggered h, ?_, ?_⟩
    · rw [relayWrites_loop, livenessCheck_events_of_triggered h]
      rfl
    · rw [loop_fst, livenessCheck_of_triggered h]
  · intro h
    rw [recoveryTriggered_loop_iff] at h
    refine ⟨?_, ?_⟩
    · rw [relayWrites_loop, livenessCheck_of_not_triggered h]
      rfl
    · rw [loop_fst, livenessCheck_of_not_triggered h]
  · exact relayPin_apply cfg s (Action.loop t tLog tSet)

/-- Witness of C14: from the power-up state, the iteration made at 300001 ms writes the relay
HIGH then LOW and ends with the relay released; the one made at 1000 ms writes nothing. -/
theorem relay_pulse_witness :
    relayWrites (loop 300001 300001 300001 (State.boot sketchConfig)).2 = [true, false] ∧
    (loop 300001 300001 300001 (State.boot sketchConfig)).1.relayPin = false ∧
    relayWrites (loop 1000 1000 1000 (State.boot sketchConfig)).2 = [] :=
  ⟨((relay_pulse sketchConfig 300001 300001 300001 (State.boot sketchConfig)
      Action.reset).1 (by decide)).2.1,
   ((relay_pulse sketchConfig 300001 300001 300001 (State.boot sketchConfig)
      Action.reset).1 (by decide)).2.2,
   ((relay_pulse sketchConfig 1000 1000 1000 (State.boot sketchConfig)
      Action.reset).2.1 (by decide)).1⟩

/-! ## The diagnostic pinger -/

/-- C15: `sendUserPing`, `userPingerRecvCallback` and `userPingerFinalCallback` return the
state they were given, so the counters, the cursor, the timestamp and the registry are
unchanged; `sendUserPing` issues nothing on `targetPinger`; when the host resolves to `ip` it
issues exactly one request on `userPinger`, to `ip` with the given count and timeout, and when
the host does not resolve it issues no echo request at all and prints one line. The callbacks
issue no request either, and return false and true. -/
theorem userPing_frame (cfg : Config) (t : Nat) (ipaddress : String) (count timeout : Nat)
    (response : AsyncPingResponse) (s : State) :
    (sendUserPing cfg t ipaddress count timeout s).1 = s ∧
    (userPingerRecvCallback t response s).1 = s ∧
    (userPingerFinalCallback t response s).1 = s ∧
    echoRequests (sendUserPing cfg t ipaddress count timeout s).2 = [] ∧
    (∀ ip, cfg.hostByName ipaddress = some ip →
      userEchoRequests (sendUserPing cfg t ipaddress count timeout s).2
        = [(ip, count, timeout)]) ∧
    (cfg.hostByName ipaddress = none →
      userEchoRequests (sendUserPing cfg t ipaddress count timeout s).2 = [] ∧
      (sendUserPing cfg t ipaddress count timeout s).2
        = [Event.logUserInvalid (millis t) ipaddress]) ∧
    echoRequests (userPingerRecvCallback t response s).2.1 = [] ∧
    userEchoRequests (userPingerRecvCallback t response s).2.1 = [] ∧
    echoRequests (userPingerFinalCallback t response s).2.1 = [] ∧
    userEchoRequests (userPingerFinalCallback t response s).2.1 = [] ∧
    (userPingerRecvCallback t response s).2.2 = false ∧
    (userPingerFinalCallback t response s).2.2 = true := by
  refine ⟨?_, ?_, rfl, ?_, ?_, ?_, ?_, ?_, ?_, ?_, ?_, rfl⟩
  · unfold sendUserPing
    split <;> rfl
  · unfold userPingerRecvCallback
    split <;> rfl
  · unfold sendUserPing
    split <;> rfl
  · intro ip hip
    unfold sendUserPing
    rw [hip]
    rfl
  · intro hnone
    unfold sendUserPing
    rw [hnone]
    exact ⟨rfl, rfl⟩
  · unfold userPingerRecvCallback
    split <;> rfl
  · unfold userPingerRecvCallback
    split <;> rfl
  · unfold userPingerFinalCallback
    cases response.mac <;> rfl
  · unfold userPingerFinalCallback
    cases response.mac <;> rfl
  · unfold userPingerRecvCallback
    split <;> rfl

/-- Witness of C15: on the committed configuration, a diagnostic ping of 8.8.8.8 issues one
request on `userPinger` with 3 probes and a timeout of 1000 ms, and a diagnostic ping of an
unknown name issues none. -/
theorem userPing_frame_witness :
    userEchoRequests (sendUserPing sketchConfig 5000 "8.8.8.8" 3 1000
      (State.boot sketchConfig)).2 = [(134744072, 3, 1000)] ∧
    userEchoRequests (sendUserPing sketchConfig 5000 "nowhere" 3 1000
      (State.boot sketchConfig)).2 = [] :=
  ⟨(userPing_frame sketchConfig 5000 "8.8.8.8" 3 1000 { answer := false, addr := 0 }
      (State.boot sketchConfig)).2.2.2.2.1 134744072 (by decide),
   ((userPing_frame sketchConfig 5000 "nowhere" 3 1000 { answer := false, addr := 0 }
      (State.boot sketchConfig)).2.2.2.2.2.1 (by decide)).1⟩

/-! ## One dispatch -/

/-- C16: one call of `sendTargetPing` with at least one valid target and the cursor inside the
array. The statistics are reset first exactly when `pingIndex = 0` and
`pingSentCount[0] > RESET_COUNTER`; with `s1` the state after that optional reset and `c`
its cursor, the call issues exactly one echo request, to `targets[c]` with 1 probe and a
timeout of 5000 ms, adds exactly 1 to `pingSentCount[c]`, moves the cursor to
`(c+1) mod targetCount`, and leaves the other sent counts, the received counts of `s1`, the
timestamp and the registry unchanged. In the reset case the first sent count ends at 1 and
every other counter at 0. -/
theorem sendTargetPing_spec (cfg : Config) (t : Nat) (s s1 : State)
    (hn : 1 ≤ s.targetCount) (hc : s.pingIndex < s.pingSentCount.length)
    (hs1 : s1 = if s.pingIndex = 0 ∧ s.pingSentCount.getD 0 0 > RESET_COUNTER
      then resetTargetStatus s else s) :
    echoRequests (sendTargetPing cfg t s).2 = [(s.targets.getD s1.pingIndex 0, 1, 5000)] ∧
    userEchoRequests (sendTargetPing cfg t s).2 = [] ∧
    (sendTargetPing cfg t s).1.pingSentCount.getD s1.pingIndex 0
      = s1.pingSentCount.getD s1.pingIndex 0 + 1 ∧
    (∀ k, k ≠ s1.pingIndex →
      (sendTargetPing cfg t s).1.pingSentCount.getD k 0 = s1.pingSentCount.getD k 0) ∧
    (sendTargetPing cfg t s).1.pingRcvdCount = s1.pingRcvdCount ∧
    (sendTargetPing cfg t s).1.pingIndex = (s1.pingIndex + 1) % s.targetCount ∧
    (sendTargetPing cfg t s).1.lastValidPing = s.lastValidPing ∧
    (sendTargetPing cfg t s).1.targets = s.targets ∧
    (sendTargetPing cfg t s).1.hostsIndex = s.hostsIndex ∧
    (sendTargetPing cfg t s).1.targetCount = s.targetCount ∧
    (s.pingIndex = 0 ∧ s.pingSentCount.getD 0 0 > RESET_COUNTER →
      (sendTargetPing cfg t s).1.pingSentCount.getD 0 0 = 1 ∧
      (∀ k, k ≠ 0 → (sendTargetPing cfg t s).1.pingSentCount.getD k 0 = 0) ∧
      (∀ k, (sendTargetPing cfg t s).1.pingRcvdCount.getD k 0 = 0)) ∧
    (¬ (s.pingIndex = 0 ∧ s.pingSentCount.getD 0 0 > RESET_COUNTER) → s1 = s) := by
  have hdue : (if resetDue s then resetTargetStatus s else s) = s1 := by
    by_cases h : s.pingIndex = 0 ∧ s.pingSentCount.getD 0 0 > RESET_COUNTER
    · have hd : resetDue s = true := by
        unfold resetDue
        rw [Bool.and_eq_true]
        exact ⟨decide_eq_true h.1, decide_eq_true h.2⟩
      rw [hs1, if_pos h, if_pos hd]
    · have hd : ¬ resetDue s = true := by
        intro hd
        unfold resetDue at hd
        rw [Bool.and_eq_true] at hd
        exact h ⟨of_decide_eq_true hd.1, of_decide_eq_true hd.2⟩
      rw [hs1, if_neg h, if_neg hd]
  obtain ⟨c1, c2, c3, c4, c5⟩ := sendTargetPing_cursor s
  rw [hdue] at c1 c2 c3 c4 c5
  have hlen : s1.pingSentCount.length = s.pingSentCount.length := by
    rw [hs1]
    split <;> simp [resetTargetStatus]
  have hlt : ¬ s.targetCount < 1 := by omega
  have hres : sendTargetPing cfg t s =
      ({ s1 with
          pingSentCount := s1.pingSentCount.set s1.pingIndex
            (s1.pingSentCount.getD s1.pingIndex 0 + 1)
          pingIndex := (s1.pingIndex + 1) % s1.targetCount },
        [Event.logSending (millis t) s1.pingIndex
            (cfg.pingHosts.getD (s1.hostsIndex.getD s1.pingIndex 0) ""),
          Event.targetPingerBegin (s1.targets.getD s1.pingIndex 0) 1 5000]) := by
    unfold sendTargetPing
    rw [if_neg hlt]
    simp only [hdue]
  rw [hres]
  refine ⟨?_, rfl, ?_, ?_, rfl, ?_, c5, c2, c4, c3, ?_, ?_⟩
  · simp only [echoRequests, c2]
  · exact getD_set_self (by rw [hlen, c1]; exact hc) _
  · intro k hk
    exact getD_set_ne _ (Ne.symm hk) _ _
  · show (s1.pingIndex + 1) % s1.targetCount = (s1.pingIndex + 1) % s.targetCount
    rw [c3]
  · intro h
    have hr : s1 = resetTargetStatus s := by
      rw [hs1, if_pos h]
    have h0 : s1.pingIndex = 0 := by rw [c1]; exact h.1
    have hlen0 : 0 < s1.pingSentCount.length := by
      rw [hlen]
      omega
    refine ⟨?_, ?_, ?_⟩
    · show (s1.pingSentCount.set s1.pingIndex
        (s1.pingSentCount.getD s1.pingIndex 0 + 1)).getD 0 0 = 1
      rw [h0, getD_set_self hlen0, hr]
      simp [resetTargetStatus, getD_replicate_zero]
    · intro k hk
      show (s1.pingSentCount.set s1.pingIndex
        (s1.pingSentCount.getD s1.pingIndex 0 + 1)).getD k 0 = 0
      rw [h0, getD_set_ne _ (Ne.symm hk), hr]
      simp [resetTargetStatus, getD_replicate_zero]
    · intro k
      show s1.pingRcvdCount.getD k 0 = 0
      rw [hr]
      simp [resetTargetStatus, getD_replicate_zero]
  · intro h
    rw [hs1, if_neg h]

/-- Witness of C16: two targets, cursor on the first, 90001 pings counted for it: the call
resets the statistics, pings the first target, and ends with the counts 1 and 0 and the
cursor on the second target. -/
theorem sendTargetPing_spec_witness :
    echoRequests (sendTargetPing aliasConfig 10000
      ⟨[11, 22], [90001, 90001], [7, 9], [0, 1], 2, 0, 55, false, false⟩).2
      = [(11, 1, 5000)] ∧
    (sendTargetPing aliasConfig 10000
      ⟨[11, 22], [90001, 90001], [7, 9], [0, 1], 2, 0, 55, false, false⟩).1
      = ⟨[11, 22], [1, 0], [0, 0], [0, 1], 2, 1, 55, false, false⟩ ∧
    (sendTargetPing aliasConfig 10000
      ⟨[11, 22], [90001, 90001], [7, 9], [0, 1], 2, 0, 55, false, false⟩
      ).1.pingSentCount.getD 0 0 = 1 :=
  ⟨(sendTargetPing_spec aliasConfig 10000
      ⟨[11, 22], [90001, 90001], [7, 9], [0, 1], 2, 0, 55, false, false⟩
      ⟨[11, 22], [0, 0], [0, 0], [0, 1], 2, 0, 55, false, false⟩
      (by decide) (by decide) (by decide)).1,
   by decide,
   ((sendTargetPing_spec aliasConfig 10000
      ⟨[11, 22], [90001, 90001], [7, 9], [0, 1], 2, 0, 55, false, false⟩
      ⟨[11, 22], [0, 0], [0, 0], [0, 1], 2, 0, 55, false, false⟩
      (by decide) (by decide) (by decide)).2.2.2.2.2.2.2.2.2.2.1 (by decide)).1⟩

/-! ## Clock rollover -/

theorem subU32_add_mod (a : Nat) {e : Nat} (he : e < U32) :
    subU32 ((a + e) % U32) a = e := by
  unfold subU32 U32 at *
  omega

/-- C20: let `e < 2^32` be the elapsed time in milliseconds since the timestamp
`lastValidPing` was taken. The liveness check made when the clock reads
`(lastValidPing + e) mod 2^32`, whether or not the clock has rolled over in between, triggers
exactly when `e > 300000`. -/
theorem livenessCheck_rollover (t tLog tSet e : Nat) (s : State) (he : e < U32)
    (hclock : millis t = (s.lastValidPing + e) % U32) :
    U32 = 2 ^ 32 ∧
    (recoveryTriggered (livenessCheck t tLog tSet s).2 ↔ 300000 < e) := by
  refine ⟨by decide, ?_⟩
  rw [livenessCheck_triggered_iff, hclock, subU32_add_mod _ he]

/-- Witness of C20: the timestamp was taken 1000 ms before the rollover and the check is made
300001 ms later, when the clock reads 299001: it triggers. -/
theorem livenessCheck_rollover_witness :
    recoveryTriggered (livenessCheck 4295266297 4295266297 4295266297
      { State.boot sketchConfig with lastValidPing := 4294966296 }).2 :=
  (livenessCheck_rollover 4295266297 4295266297 4295266297 300001
    { State.boot sketchConfig with lastValidPing := 4294966296 }
    (by decide) (by decide)).2.mpr (by decide)

/-! ## The registry built by `setupTargets` -/

theorem take_succ_set {α : Type} (l : List α) {n : Nat} (h : n < l.length) (v : α) :
    (l.set n v).take (n + 1) = l.take n ++ [v] := by
  induction l generalizing n with
  | nil => simp at h
  | cons a rest ih =>
    cases n with
    | zero => simp
    | succ m =>
      simp only [List.length_cons, Nat.add_lt_add_iff_right] at h
      simp [ih h]

theorem map_getD_range (l : List String) :
    (List.range l.length).map (fun i => l.getD i "") = l := by
  apply List.ext_getElem
  · simp
  · intro n h1 h2
    simp [List.getElem?_eq_getElem h2]

theorem getD_set_self_nat {l : List Nat} {i : Nat} (h : i < l.length) (v : Nat) :
    (l.set i v).getD i 0 = v := by
  simp [List.getD_eq_getElem?_getD, List.getElem?_set_self h]

theorem SetupInv.init (cfg : Config) (s0 : State) :
    SetupInv cfg s0 0 ({ s0 with targetCount := 0 }, []) where
  count := rfl
  bound := Nat.le_refl 0
  index := rfl
  addrs := rfl
  log := rfl
  resolved := fun k hk => absurd hk (Nat.not_lt_zero k)
  inRange := fun k hk => absurd hk (Nat.not_lt_zero k)
  targetsSize := rfl
  indexSize := rfl
  sent := rfl
  rcvd := rfl
  stamp := rfl

theorem SetupInv.failed {cfg : Config} {s0 : State} {i : Nat} {acc : State × List Event}
    (h : SetupInv cfg s0 i acc)
    (hres : cfg.hostByName (cfg.pingHosts.getD i "") = none) :
    SetupInv cfg s0 (i + 1) (acc.1, acc.2 ++ [Event.logInvalidHost (cfg.pingHosts.getD i "")])
    := by
  have hr : resolves cfg i = false := by
    unfold resolves
    rw [hres]
    rfl
  refine ⟨?_, ?_, ?_, ?_, ?_, h.resolved, ?_, h.targetsSize, h.indexSize, h.sent, h.rcvd,
    h.stamp⟩
  · show acc.1.targetCount = _
    rw [List.range_succ, List.filter_append, h.count]
    simp [hr]
  · exact Nat.le_succ_of_le h.bound
  · show acc.1.hostsIndex.take acc.1.targetCount = _
    rw [List.range_succ, List.filter_append, h.index]
    simp [hr]
  · show acc.1.targets.take acc.1.targetCount = _
    rw [List.range_succ, List.filterMap_append, h.addrs]
    simp only [List.filterMap_cons, hres, List.filterMap_nil, List.append_nil]
  · show acc.2 ++ [Event.logInvalidHost (cfg.pingHosts.getD i "")] = _
    rw [List.range_succ, List.filter_append, List.map_append, h.log]
    simp [hr]
  · intro k hk
    exact Nat.lt_succ_of_lt (h.inRange k hk)

theorem SetupInv.resolved_step {cfg : Config} {s0 : State} {i : Nat}
    {acc : State × List Event} (h : SetupInv cfg s0 i acc) (ip : IPAddress)
    (hres : cfg.hostByName (cfg.pingHosts.getD i "") = some ip)
    (ht : i < s0.targets.length) (hx : i < s0.hostsIndex.length) :
    SetupInv cfg s0 (i + 1)
      ({ acc.1 with
          targets := acc.1.targets.set acc.1.targetCount ip
          hostsIndex := acc.1.hostsIndex.set acc.1.targetCount i
          targetCount := acc.1.targetCount + 1 },
        acc.2) := by
  have hr : resolves cfg i = true := by
    unfold resolves
    rw [hres]
    rfl
  have hb := h.bound
  have hts := h.targetsSize
  have hxs := h.indexSize
  refine ⟨?_, ?_, ?_, ?_, ?_, ?_, ?_, ?_, ?_, h.sent, h.rcvd, h.stamp⟩
  · show acc.1.targetCount + 1 = _
    rw [List.range_succ, List.filter_append, List.length_append, ← h.count]
    simp [hr]
  · show acc.1.targetCount + 1 ≤ i + 1
    omega
  · show (acc.1.hostsIndex.set acc.1.targetCount i).take (acc.1.targetCount + 1) = _
    rw [take_succ_set _ (by omega), h.index, List.range_succ, List.filter_append]
    simp [hr]
  · show (acc.1.targets.set acc.1.targetCount ip).take (acc.1.targetCount + 1) = _
    rw [take_succ_set _ (by omega), h.addrs, List.range_succ, List.filterMap_append]
    simp only [List.filterMap_cons, hres, List.filterMap_nil]
  · show acc.2 = _
    rw [List.range_succ, List.filter_append, List.map_append, ← h.log]
    simp [hr]
  · intro k hk
    show cfg.hostByName (cfg.pingHosts.getD
        ((acc.1.hostsIndex.set acc.1.targetCount i).getD k 0) "")
      = some ((acc.1.targets.set acc.1.targetCount ip).getD k 0)
    have hk1 : k < acc.1.targetCount + 1 := hk
    by_cases hkc : k = acc.1.targetCount
    · subst hkc
      rw [getD_set_self_nat (by omega), getD_set_self_nat (by omega)]
      exact hres
    · rw [getD_set_ne _ (Ne.symm hkc), getD_set_ne _ (Ne.symm hkc)]
      exact h.resolved k (by omega)
  · intro k hk
    show (acc.1.hostsIndex.set acc.1.targetCount i).getD k 0 < i + 1
    have hk1 : k < acc.1.targetCount + 1 := hk
    by_cases hkc : k = acc.1.targetCount
    · subst hkc
      rw [getD_set_self_nat (by omega)]
      exact Nat.lt_succ_self i
    · rw [getD_set_ne _ (Ne.symm hkc)]
      exact Nat.lt_succ_of_lt (h.inRange k (by omega))
  · show (acc.1.targets.set acc.1.targetCount ip).length = _
    rw [List.length_set]
    exact hts
  · show (acc.1.hostsIndex.set acc.1.targetCount i).length = _
    rw [List.length_set]
    exact hxs

theorem SetupInv.next {cfg : Config} {s0 : State} {i : Nat} {acc : State × List Event}
    (h : SetupInv cfg s0 i acc) (ht : i < s0.targets.length)
    (hx : i < s0.hostsIndex.length) :
    SetupInv cfg s0 (i + 1) (setupTargetsStep cfg acc i) := by
  unfold setupTargetsStep
  cases hres : cfg.hostByName (cfg.pingHosts.getD i "") with
  | none => exact h.failed hres
  | some ip => exact h.resolved_step ip hres ht hx

theorem SetupInv.fold (cfg : Config) (s0 : State) (n : Nat) (ht : n ≤ s0.targets.length)
    (hx : n ≤ s0.hostsIndex.length) :
    SetupInv cfg s0 n
      ((List.range n).foldl (setupTargetsStep cfg) ({ s0 with targetCount := 0 }, [])) := by
  induction n with
  | zero => exact SetupInv.init cfg s0
  | succ m ih =>
    rw [List.range_succ, List.foldl_append]
    exact (ih (by omega) (by omega)).next (by omega) (by omega)

theorem filter_hosts (l : List String) (p : String → Bool) :
    l.filter p =
      ((List.range l.length).filter (fun i => p (l.getD i ""))).map (fun i => l.getD i "") := by
  have h := List.filter_map (p := p) (fun i => l.getD i "") (List.range l.length)
  rw [map_getD_range] at h
  exact h

theorem filterMap_hosts {α : Type} (l : List String) (g : String → Option α) :
    l.filterMap g = (List.range l.length).filterMap (fun i => g (l.getD i "")) := by
  have h := List.filterMap_map (fun i => l.getD i "") g (List.range l.length)
  rw [map_getD_range] at h
  exact h

/-- The state and the log of `setupTargets`, run on arrays of `TARGET_COUNT` entries, satisfy
the loop invariant for all the configured entries. -/
theorem setupTargets_inv (cfg : Config) (s0 : State) (hsized : s0.Sized cfg) :
    SetupInv cfg s0 cfg.TARGET_COUNT
      ((List.range cfg.TARGET_COUNT).foldl (setupTargetsStep cfg)
        ({ s0 with targetCount := 0 }, [])) :=
  SetupInv.fold cfg s0 cfg.TARGET_COUNT (by rw [hsized.1]) (by rw [hsized.2.2.2])

theorem setupTargets_sized (cfg : Config) (s0 : State) (hsized : s0.Sized cfg) :
    (setupTargets cfg s0).1.Sized cfg := by
  have h := setupTargets_inv cfg s0 hsized
  obtain ⟨z1, z2, z3, z4⟩ := hsized
  refine ⟨?_, ?_, ?_, ?_⟩
  · show List.length _ = _
    rw [← z1]
    exact h.targetsSize
  · show (List.replicate _ (0 : Int)).length = _
    rw [List.length_replicate, h.sent]
    exact z2
  · show (List.replicate _ (0 : Int)).length = _
    rw [List.length_replicate, h.rcvd]
    exact z3
  · show List.length _ = _
    rw [← z4]
    exact h.indexSize

/-- C12: `setupTargets` run on arrays of `TARGET_COUNT` entries, for any host list and any
resolver. Afterwards `targetCount` is the number of entries that resolve; the first
`targetCount` entries of `hostsIndex` are the configuration indices that resolve, in
increasing order; the first `targetCount` entries of `targets` are the addresses of the
entries that resolve, in order, and `targets[k]` is the address of
`pingHosts[hostsIndex[k]]`; the log is one failure line per entry that does not resolve, in
order; all counters and the cursor are 0 and the arrays keep their size. For the hosts
8.8.8.8 and not-a-real-host there is one valid target, 8.8.8.8 with `hostsIndex[0] = 0`, and
one failure line. -/
theorem setupTargets_spec (cfg : Config) (s0 : State) (hsized : s0.Sized cfg) :
    (setupTargets cfg s0).1.targetCount =
      (cfg.pingHosts.filter (fun h => (cfg.hostByName h).isSome)).length ∧
    (setupTargets cfg s0).1.hostsIndex.take (setupTargets cfg s0).1.targetCount =
      (List.range cfg.TARGET_COUNT).filter (resolves cfg) ∧
    ((setupTargets cfg s0).1.hostsIndex.take (setupTargets cfg s0).1.targetCount).Pairwise
      (fun a b => a < b) ∧
    (setupTargets cfg s0).1.targets.take (setupTargets cfg s0).1.targetCount =
      cfg.pingHosts.filterMap cfg.hostByName ∧
    (∀ k, k < (setupTargets cfg s0).1.targetCount →
      cfg.hostByName (cfg.pingHosts.getD ((setupTargets cfg s0).1.hostsIndex.getD k 0) "")
        = some ((setupTargets cfg s0).1.targets.getD k 0)) ∧
    (setupTargets cfg s0).2 =
      (cfg.pingHosts.filter (fun h => (cfg.hostByName h).isNone)).map Event.logInvalidHost ∧
    (∀ x ∈ (setupTargets cfg s0).1.pingSentCount, x = 0) ∧
    (∀ x ∈ (setupTargets cfg s0).1.pingRcvdCount, x = 0) ∧
    (setupTargets cfg s0).1.pingIndex = 0 ∧
    (setupTargets cfg s0).1.Sized cfg ∧
    setupTargets twoHostConfig (State.boot twoHostConfig) =
      (⟨[134744072, 0], [0, 0], [0, 0], [0, 0], 1, 0, 0, false, false⟩,
        [Event.logInvalidHost "not-a-real-host"]) := by
  have h := setupTargets_inv cfg s0 hsized
  obtain ⟨z1, z2, z3, z4⟩ := hsized
  refine ⟨?_, h.index, ?_, ?_, h.resolved, ?_, ?_, ?_, rfl, ?_, by decide⟩
  · have e : (cfg.pingHosts.filter (fun h => (cfg.hostByName h).isSome)).length =
        ((List.range cfg.TARGET_COUNT).filter (resolves cfg)).length := by
      rw [filter_hosts, List.length_map]
      rfl
    exact h.count.trans e.symm
  · have hp := (List.pairwise_lt_range cfg.TARGET_COUNT).filter (resolves cfg)
    rw [← h.index] at hp
    exact hp
  · have e : cfg.pingHosts.filterMap cfg.hostByName =
        (List.range cfg.TARGET_COUNT).filterMap
          (fun j => cfg.hostByName (cfg.pingHosts.getD j "")) := by
      rw [filterMap_hosts]
      rfl
    exact h.addrs.trans e.symm
  · have hf : (fun j => !resolves cfg j) =
        (fun i => (cfg.hostByName (cfg.pingHosts.getD i "")).isNone) := by
      funext j
      unfold resolves
      cases cfg.hostByName (cfg.pingHosts.getD j "") <;> rfl
    have e : (cfg.pingHosts.filter (fun h => (cfg.hostByName h).isNone)).map
          Event.logInvalidHost =
        ((List.range cfg.TARGET_COUNT).filter (fun j => !resolves cfg j)).map
          (fun j => Event.logInvalidHost (cfg.pingHosts.getD j "")) := by
      rw [filter_hosts, List.map_map, hf]
      rfl
    exact h.log.trans e.symm
  · intro x hx
    exact List.eq_of_mem_replicate hx
  · intro x hx
    exact List.eq_of_mem_replicate hx
  · exact setupTargets_sized cfg s0 ⟨z1, z2, z3, z4⟩

/-- Witness of C12: the committed sketch carries the remark that one bad host name tests
`setupTargets`; with the hosts 8.8.8.8 and not-a-real-host, from the power-up state, there is
one valid target, at configuration index 0, and one failure line. -/
theorem setupTargets_spec_witness :
    (setupTargets twoHostConfig (State.boot twoHostConfig)).1.targetCount = 1 ∧
    (setupTargets twoHostConfig (State.boot twoHostConfig)).1.hostsIndex.take 1 = [0] ∧
    (setupTargets twoHostConfig (State.boot twoHostConfig)).1.targets.take 1 = [134744072] ∧
    (setupTargets twoHostConfig (State.boot twoHostConfig)).2
      = [Event.logInvalidHost "not-a-real-host"] :=
  ⟨(setupTargets_spec twoHostConfig (State.boot twoHostConfig) (by decide)).1,
   (setupTargets_spec twoHostConfig (State.boot twoHostConfig) (by decide)).2.1,
   (setupTargets_spec twoHostConfig (State.boot twoHostConfig) (by decide)).2.2.2.1,
   (setupTargets_spec twoHostConfig (State.boot twoHostConfig) (by decide)).2.2.2.2.2.1⟩

/-! ## The rotation of the cursor and the growth of the counters -/

theorem Balanced.same_counts {s s2 : State} {q : Nat} (h : Balanced s q)
    (h1 : s2.pingSentCount = s.pingSentCount) (h2 : s2.targetCount = s.targetCount)
    (h3 : s2.pingIndex = s.pingIndex) : Balanced s2 q where
  size := by
    rw [h1, h2]
    exact h.size
  cursor := by
    rw [h2, h3]
    exact h.cursor
  profile := by
    rw [h1, h2, h3]
    exact h.profile

theorem Balanced.cleared {s : State} {q : Nat} (h : Balanced s q) :
    Balanced (resetTargetStatus s) 0 where
  size := by
    show s.targetCount ≤ (List.replicate s.pingSentCount.length (0 : Int)).length
    rw [List.length_replicate]
    exact h.size
  cursor := by
    show 0 < s.targetCount
    exact Nat.lt_of_le_of_lt (Nat.zero_le _) h.cursor
  profile := by
    intro k _
    show (List.replicate s.pingSentCount.length (0 : Int)).getD k 0 =
      ((0 : Nat) : Int) + (if k < 0 then 1 else 0)
    rw [getD_replicate_zero]
    simp

theorem resetDue_iff (s : State) :
    resetDue s = true ↔ s.pingIndex = 0 ∧ s.pingSentCount.getD 0 0 > RESET_COUNTER := by
  unfold resetDue
  rw [Bool.and_eq_true, decide_eq_true_iff, decide_eq_true_iff]

theorem resetDue_resetTargetStatus (s : State) : resetDue (resetTargetStatus s) = false := by
  cases h : resetDue (resetTargetStatus s) with
  | false => rfl
  | true =>
    rw [resetDue_iff] at h
    have h2 := h.2
    simp only [resetTargetStatus, getD_replicate_zero] at h2
    unfold RESET_COUNTER at h2
    omega

/-- When the reset is due, `sendTargetPing` behaves as on the state already reset. -/
theorem sendTargetPing_of_resetDue (cfg : Config) (t : Nat) (s : State)
    (hn : 1 ≤ s.targetCount) (h : resetDue s = true) :
    sendTargetPing cfg t s = sendTargetPing cfg t (resetTargetStatus s) := by
  have hlt : ¬ s.targetCount < 1 := by omega
  have hlt2 : ¬ (resetTargetStatus s).targetCount < 1 := hlt
  unfold sendTargetPing
  rw [resetDue_resetTargetStatus, if_pos h, if_neg hlt, if_neg hlt2]
  simp only [Bool.false_eq_true, if_false]

/-- One dispatch without reset moves the balance one step forward. -/
theorem Balanced.advance (cfg : Config) (t : Nat) {s : State} {q : Nat}
    (h : Balanced s q) (hno : resetDue s = false) :
    Balanced (sendTargetPing cfg t s).1
        (if s.pingIndex + 1 = s.targetCount then q + 1 else q) ∧
      (sendTargetPing cfg t s).1.pingIndex
        = (if s.pingIndex + 1 = s.targetCount then 0 else s.pingIndex + 1) ∧
      (sendTargetPing cfg t s).1.targetCount = s.targetCount := by
  have hc := h.cursor
  have hsz := h.size
  have hlt : ¬ s.targetCount < 1 := by omega
  have hres : (sendTargetPing cfg t s).1 =
      { s with
        pingSentCount := s.pingSentCount.set s.pingIndex
          (s.pingSentCount.getD s.pingIndex 0 + 1)
        pingIndex := (s.pingIndex + 1) % s.targetCount } := by
    unfold sendTargetPing
    rw [if_neg hlt]
    simp only [hno]
    rfl
  have hidx : (s.pingIndex + 1) % s.targetCount
      = (if s.pingIndex + 1 = s.targetCount then 0 else s.pingIndex + 1) := by
    by_cases he : s.pingIndex + 1 = s.targetCount
    · rw [if_pos he, he, Nat.mod_self]
    · rw [if_neg he, Nat.mod_eq_of_lt (by omega)]
  rw [hres]
  refine ⟨⟨?_, ?_, ?_⟩, hidx, rfl⟩
  · show s.targetCount ≤ (s.pingSentCount.set _ _).length
    rw [List.length_set]
    exact hsz
  · show (s.pingIndex + 1) % s.targetCount < s.targetCount
    exact Nat.mod_lt _ (by omega)
  · intro k hk
    have hk1 : k < s.targetCount := hk
    show (s.pingSentCount.set s.pingIndex (s.pingSentCount.getD s.pingIndex 0 + 1)).getD k 0
      = (((if s.pingIndex + 1 = s.targetCount then q + 1 else q : Nat)) : Int)
        + (if k < (s.pingIndex + 1) % s.targetCount then 1 else 0)
    rw [hidx]
    have hp := h.profile k hk1
    have hpc := h.profile s.pingIndex hc
    by_cases hkc : k = s.pingIndex
    · subst hkc
      rw [getD_set_self (by omega), hpc]
      by_cases he : s.pingIndex + 1 = s.targetCount
      · simp [he]
      · simp [he]
    · rw [getD_set_ne _ (Ne.symm hkc), hp]
      by_cases he : s.pingIndex + 1 = s.targetCount
      · have hkl : k < s.pingIndex := by omega
        simp [he, hkl]
      · by_cases hkl : k < s.pingIndex
        · have hkl2 : k < s.pingIndex + 1 := by omega
          simp [he, hkl, hkl2]
        · have hkl2 : ¬ k < s.pingIndex + 1 := by omega
          simp [he, hkl, hkl2]

theorem targetPingerCallback_frame (cfg : Config) (tLog tSet : Nat) (r : AsyncPingResponse)
    (s : State) :
    (targetPingerCallback cfg tLog tSet r s).1.pingSentCount = s.pingSentCount ∧
    (targetPingerCallback cfg tLog tSet r s).1.targetCount = s.targetCount ∧
    (targetPingerCallback cfg tLog tSet r s).1.pingIndex = s.pingIndex ∧
    (targetPingerCallback cfg tLog tSet r s).1.hostsIndex = s.hostsIndex ∧
    (targetPingerCallback cfg tLog tSet r s).1.targets = s.targets ∧
    (targetPingerCallback cfg tLog tSet r s).1.pingRcvdCount.length
      = s.pingRcvdCount.length := by
  unfold targetPingerCallback
  split
  · split
    · exact ⟨rfl, rfl, rfl, rfl, rfl, by simp⟩
    · exact ⟨rfl, rfl, rfl, rfl, rfl, rfl⟩
  · exact ⟨rfl, rfl, rfl, rfl, rfl, rfl⟩

theorem apply_targetCount (cfg : Config) (s : State) (a : Action) :
    (a.apply cfg s).1.targetCount = s.targetCount := by
  cases a with
  | ping t =>
    simp only [Action.apply, sendTargetPing]
    split
    · rfl
    · exact (sendTargetPing_cursor s).2.2.1
  | report t =>
    simp only [Action.apply, reportTargetStatus]
    split <;> rfl
  | reset => rfl
  | response tLog tSet r => exact (targetPingerCallback_frame cfg tLog tSet r s).2.1
  | loop t tLog tSet =>
    simp only [Action.apply]
    rw [loop_fst]
    exact (livenessCheck_counters t tLog tSet s).2.2.2.1

/-- Every activity keeps the invariant of the rotation. -/
theorem Rotation.kept {cfg : Config} {s : State} (h : Rotation s) (a : Action) :
    Rotation (a.apply cfg s).1 := by
  rcases h with h0 | ⟨q, hb, hq⟩
  · left
    rw [apply_targetCount]
    exact h0
  · right
    have hc := hb.cursor
    cases a with
    | ping t =>
      simp only [Action.apply]
      cases hdue : resetDue s with
      | true =>
        obtain ⟨d1, d2, _⟩ := (hb.cleared).advance cfg t (resetDue_resetTargetStatus s)
        rw [← sendTargetPing_of_resetDue cfg t s (by omega) hdue] at d1 d2
        refine ⟨_, d1, ?_⟩
        simp only [d2]
        show ((if 0 + 1 = s.targetCount then 0 + 1 else 0 : Nat) : Int)
          + (if 0 < (if 0 + 1 = s.targetCount then 0 else 0 + 1) then 1 else 0)
          ≤ RESET_COUNTER + 1
        unfold RESET_COUNTER
        by_cases he : 0 + 1 = s.targetCount
        · simp only [if_pos he]
          norm_num
        · simp only [if_neg he]
          norm_num
      | false =>
        obtain ⟨d1, d2, _⟩ := hb.advance cfg t hdue
        refine ⟨_, d1, ?_⟩
        simp only [d2]
        have hnd : ¬ (s.pingIndex = 0 ∧ s.pingSentCount.getD 0 0 > RESET_COUNTER) := by
          rw [← resetDue_iff, hdue]
          simp
        have hp0 := hb.profile 0 (by omega)
        unfold RESET_COUNTER at *
        by_cases he : s.pingIndex + 1 = s.targetCount
        · simp only [he, if_true, Nat.lt_irrefl, if_false]
          by_cases hz : s.pingIndex = 0
          · have hz2 : ¬ (0 < s.pingIndex) := by omega
            rw [hz] at hp0
            simp only [Nat.lt_irrefl, if_false] at hp0
            have := fun hgt => hnd ⟨hz, hgt⟩
            push_cast
            omega
          · have hz2 : 0 < s.pingIndex := by omega
            simp only [hz2, if_true] at hq
            push_cast
            omega
        · simp only [he, if_false, Nat.succ_pos, if_true]
          by_cases hz : s.pingIndex = 0
          · rw [hz] at hp0
            simp only [Nat.lt_irrefl, if_false] at hp0
            have := fun hgt => hnd ⟨hz, hgt⟩
            omega
          · have hz2 : 0 < s.pingIndex := by omega
            simp only [hz2, if_true] at hq
            omega
    | report t =>
      refine ⟨q, ?_, ?_⟩
      · simp only [Action.apply, reportTargetStatus]
        split <;> exact hb
      · simp only [Action.apply, reportTargetStatus]
        split <;> exact hq
    | reset =>
      refine ⟨0, hb.cleared, ?_⟩
      show ((0 : Nat) : Int) + (if 0 < 0 then 1 else 0) ≤ RESET_COUNTER + 1
      unfold RESET_COUNTER
      simp
    | response tLog tSet r =>
      obtain ⟨f1, f2, f3, _⟩ := targetPingerCallback_frame cfg tLog tSet r s
      refine ⟨q, hb.same_counts f1 f2 f3, ?_⟩
      show (q : Int) + (if 0 < (targetPingerCallback cfg tLog tSet r s).1.pingIndex
        then 1 else 0) ≤ RESET_COUNTER + 1
      simp only [f3]
      exact hq
    | loop t tLog tSet =>
      obtain ⟨_, c2, _, c4, c5⟩ := livenessCheck_counters t tLog tSet s
      have e := loop_fst t tLog tSet s
      have e5 : (loop t tLog tSet s).1.pingIndex = s.pingIndex := by
        rw [e]
        exact c5
      have e2 : (loop t tLog tSet s).1.pingSentCount = s.pingSentCount := by
        rw [e]
        exact c2
      have e4 : (loop t tLog tSet s).1.targetCount = s.targetCount := by
        rw [e]
        exact c4
      refine ⟨q, hb.same_counts e2 e4 e5, ?_⟩
      simp only [Action.apply, e5]
      exact hq

theorem Rotation.kept_run {cfg : Config} (acts : List Action) :
    ∀ {s : State}, Rotation s → Rotation (runActions cfg s acts).1 := by
  induction acts with
  | nil =>
    intro s h
    exact h
  | cons a rest ih =>
    intro s h
    simp only [runActions]
    exact ih (h.kept a)

theorem Rotation.initial (cfg : Config) (s0 : State) (hsized : s0.Sized cfg) :
    Rotation (setupTargets cfg s0).1 := by
  obtain ⟨h1, h2, _, h4⟩ := setupTargets_counters cfg s0 hsized
  by_cases h0 : (setupTargets cfg s0).1.targetCount = 0
  · exact Or.inl h0
  · right
    refine ⟨0, ⟨?_, ?_, ?_⟩, ?_⟩
    · rw [h2, List.length_replicate]
      exact h1
    · rw [h4]
      omega
    · intro k _
      rw [h2, h4, getD_replicate_zero]
      simp
    · simp only [h4]
      unfold RESET_COUNTER
      simp

/-- C18: in every state reached from `setupTargets` (run on arrays of `TARGET_COUNT` entries)
by pings, resets and any other activity of the sketch, with `c = pingIndex`, every valid
target `k` before the cursor, and every valid target when `c = 0`, has the sent count of
target 0; every valid target from the cursor on, when `c > 0`, has that count minus 1; hence
no valid target has more pings sent than target 0 and two valid targets differ by at most
1. -/
theorem round_robin_balance (cfg : Config) (s0 : State) (acts : List Action) (k : Nat)
    (hsized : s0.Sized cfg)
    (hk : k < (runActions cfg (setupTargets cfg s0).1 acts).1.targetCount) :
    ((k < (runActions cfg (setupTargets cfg s0).1 acts).1.pingIndex ∨
        (runActions cfg (setupTargets cfg s0).1 acts).1.pingIndex = 0) →
      (runActions cfg (setupTargets cfg s0).1 acts).1.pingSentCount.getD k 0 =
        (runActions cfg (setupTargets cfg s0).1 acts).1.pingSentCount.getD 0 0) ∧
    (0 < (runActions cfg (setupTargets cfg s0).1 acts).1.pingIndex →
      (runActions cfg (setupTargets cfg s0).1 acts).1.pingIndex ≤ k →
      (runActions cfg (setupTargets cfg s0).1 acts).1.pingSentCount.getD k 0 =
        (runActions cfg (setupTargets cfg s0).1 acts).1.pingSentCount.getD 0 0 - 1) ∧
    (runActions cfg (setupTargets cfg s0).1 acts).1.pingSentCount.getD k 0 ≤
      (runActions cfg (setupTargets cfg s0).1 acts).1.pingSentCount.getD 0 0 ∧
    (∀ j, j < (runActions cfg (setupTargets cfg s0).1 acts).1.targetCount →
      (runActions cfg (setupTargets cfg s0).1 acts).1.pingSentCount.getD j 0 -
        (runActions cfg (setupTargets cfg s0).1 acts).1.pingSentCount.getD k 0 ≤ 1 ∧
      (runActions cfg (setupTargets cfg s0).1 acts).1.pingSentCount.getD k 0 -
        (runActions cfg (setupTargets cfg s0).1 acts).1.pingSentCount.getD j 0 ≤ 1) := by
  have hrot : Rotation (runActions cfg (setupTargets cfg s0).1 acts).1 :=
    Rotation.kept_run acts (Rotation.initial cfg s0 hsized)
  generalize (runActions cfg (setupTargets cfg s0).1 acts).1 = S at hk hrot ⊢
  rcases hrot with h0 | ⟨q, hb, _⟩
  · omega
  · have hpk := hb.profile k hk
    have hp0 := hb.profile 0 (by omega)
    refine ⟨?_, ?_, ?_, ?_⟩
    · intro hor
      rw [hpk, hp0]
      rcases hor with hlt | hz
      · have h0c : 0 < S.pingIndex := by omega
        simp [hlt, h0c]
      · have h1 : ¬ k < S.pingIndex := by omega
        have h2 : ¬ 0 < S.pingIndex := by omega
        simp [h1, h2]
    · intro hpos hle
      rw [hpk, hp0]
      have h1 : ¬ k < S.pingIndex := by omega
      simp [h1, hpos]
    · rw [hpk, hp0]
      by_cases h1 : k < S.pingIndex
      · have h0c : 0 < S.pingIndex := by omega
        simp [h1, h0c]
      · simp only [h1, if_false]
        split <;> omega
    · intro j hj
      have hpj := hb.profile j hj
      rw [hpk, hpj]
      constructor <;> split <;> split <;> omega

/-- Witness of C18: three targets, four pings after the setup: the cursor is on the second
target, the first target has 2 pings sent and the third has 1. -/
theorem round_robin_balance_witness :
    (runActions trioConfig (setupTargets trioConfig (State.boot trioConfig)).1
      [Action.ping 10000, Action.ping 20000, Action.ping 30000, Action.ping 40000]
      ).1.pingSentCount.getD 2 0 =
    (runActions trioConfig (setupTargets trioConfig (State.boot trioConfig)).1
      [Action.ping 10000, Action.ping 20000, Action.ping 30000, Action.ping 40000]
      ).1.pingSentCount.getD 0 0 - 1 :=
  (round_robin_balance trioConfig (State.boot trioConfig)
    [Action.ping 10000, Action.ping 20000, Action.ping 30000, Action.ping 40000] 2
    (by decide) (by decide)).2.1 (by decide) (by decide)

/-- C17: in every state reached from `setupTargets` (run on arrays of `TARGET_COUNT` entries)
by pings, resets, deliveries to `targetPingerCallback` and any other activity of the sketch,
the sent count of every valid target lies between 0 and `RESET_COUNTER + 1 = 90001`; so
adding 1 to it and multiplying it by `UNRELIABLE` stay within a 32-bit `int`. -/
theorem sent_count_bounded (cfg : Config) (s0 : State) (acts : List Action) (k : Nat)
    (hsized : s0.Sized cfg)
    (hk : k < (runActions cfg (setupTargets cfg s0).1 acts).1.targetCount) :
    RESET_COUNTER + 1 = 90001 ∧
    0 ≤ (runActions cfg (setupTargets cfg s0).1 acts).1.pingSentCount.getD k 0 ∧
    (runActions cfg (setupTargets cfg s0).1 acts).1.pingSentCount.getD k 0
      ≤ RESET_COUNTER + 1 ∧
    (runActions cfg (setupTargets cfg s0).1 acts).1.pingSentCount.getD k 0 + 1 ≤ INT_MAX ∧
    UNRELIABLE * (runActions cfg (setupTargets cfg s0).1 acts).1.pingSentCount.getD k 0
      ≤ INT_MAX ∧
    0 ≤ UNRELIABLE * (runActions cfg (setupTargets cfg s0).1 acts).1.pingSentCount.getD k 0
    := by
  have hrot : Rotation (runActions cfg (setupTargets cfg s0).1 acts).1 :=
    Rotation.kept_run acts (Rotation.initial cfg s0 hsized)
  generalize (runActions cfg (setupTargets cfg s0).1 acts).1 = S at hk hrot ⊢
  rcases hrot with h0 | ⟨q, hb, hq⟩
  · omega
  · have hpk := hb.profile k hk
    have hle : S.pingSentCount.getD k 0 ≤ RESET_COUNTER + 1 ∧
        0 ≤ S.pingSentCount.getD k 0 := by
      rw [hpk]
      constructor
      · by_cases h1 : k < S.pingIndex
        · have h0c : 0 < S.pingIndex := by omega
          simp only [h0c, if_true] at hq
          simp only [h1, if_true]
          exact hq
        · simp only [h1, if_false]
          split at hq <;> omega
      · split <;> omega
    unfold RESET_COUNTER INT_MAX UNRELIABLE at *
    refine ⟨by decide, hle.2, hle.1, ?_, ?_, ?_⟩ <;> omega

/-- Witness of C17: on the committed configuration, after a ping, its reply and a second
ping, the only target has a sent count of at most 90001. -/
theorem sent_count_bounded_witness :
    (runActions sketchConfig (setupTargets sketchConfig (State.boot sketchConfig)).1
      [Action.ping 10000, Action.response 10050 10050 { answer := true, addr := 134744072 },
       Action.ping 20000]).1.pingSentCount.getD 0 0 ≤ RESET_COUNTER + 1 :=
  (sent_count_bounded sketchConfig (State.boot sketchConfig)
    [Action.ping 10000, Action.response 10050 10050 { answer := true, addr := 134744072 },
     Action.ping 20000] 0 (by decide) (by decide)).2.2.1

/-! ## Index safety -/

theorem IndexSafe.framed {cfg : Config} {s s2 : State} (h : IndexSafe cfg s)
    (h1 : s2.targets = s.targets) (h2 : s2.hostsIndex = s.hostsIndex)
    (h3 : s2.targetCount = s.targetCount)
    (h4 : s2.pingSentCount.length = s.pingSentCount.length)
    (h5 : s2.pingRcvdCount.length = s.pingRcvdCount.length)
    (h6 : 1 ≤ s.targetCount → s2.pingIndex < s.targetCount) : IndexSafe cfg s2 where
  sized := by
    obtain ⟨z1, z2, z3, z4⟩ := h.sized
    exact ⟨by rw [h1]; exact z1, by rw [h4]; exact z2, by rw [h5]; exact z3,
      by rw [h2]; exact z4⟩
  count := by
    rw [h3]
    exact h.count
  hosts := by
    rw [h3, h2]
    exact h.hosts
  cursor := by
    rw [h3]
    exact h6

theorem IndexSafe.cleared_safe {cfg : Config} {s : State} (h : IndexSafe cfg s) :
    IndexSafe cfg (resetTargetStatus s) :=
  h.framed rfl rfl rfl (by simp [resetTargetStatus]) (by simp [resetTargetStatus])
    (fun hn => hn)

theorem IndexSafe.kept_safe {cfg : Config} {s : State} (h : IndexSafe cfg s) (a : Action) :
    IndexSafe cfg (a.apply cfg s).1 := by
  cases a with
  | ping t =>
    simp only [Action.apply, sendTargetPing]
    split
    · exact h
    · have h1 : IndexSafe cfg (if resetDue s then resetTargetStatus s else s) := by
        split
        · exact h.cleared_safe
        · exact h
      exact h1.framed rfl rfl rfl (by simp) rfl (fun hn => Nat.mod_lt _ (by omega))
  | report t =>
    simp only [Action.apply, reportTargetStatus]
    split <;> exact h
  | reset => exact h.cleared_safe
  | response tLog tSet r =>
    obtain ⟨f1, f2, f3, f4, f5, f6⟩ := targetPingerCallback_frame cfg tLog tSet r s
    exact h.framed f5 f4 f2 (congrArg List.length f1) f6
      (fun hn => f3.symm ▸ h.cursor hn)
  | loop t tLog tSet =>
    have e := loop_fst t tLog tSet s
    simp only [Action.apply]
    rw [e]
    unfold livenessCheck
    split
    · exact h.framed rfl rfl rfl rfl rfl h.cursor
    · exact h

theorem IndexSafe.kept_safe_run {cfg : Config} (acts : List Action) :
    ∀ {s : State}, IndexSafe cfg s → IndexSafe cfg (runActions cfg s acts).1 := by
  induction acts with
  | nil =>
    intro s h
    exact h
  | cons a rest ih =>
    intro s h
    simp only [runActions]
    exact ih (h.kept_safe a)

theorem IndexSafe.initial_safe (cfg : Config) (s0 : State) (hsized : s0.Sized cfg) :
    IndexSafe cfg (setupTargets cfg s0).1 where
  sized := setupTargets_sized cfg s0 hsized
  count := (setupTargets_inv cfg s0 hsized).bound
  hosts := (setupTargets_inv cfg s0 hsized).inRange
  cursor := by
    intro hn
    rw [(setupTargets_counters cfg s0 hsized).2.2.2]
    exact hn

/-- C19: in every state reached from `setupTargets` (run on arrays of `TARGET_COUNT` entries)
by pings, resets, reports, deliveries to `targetPingerCallback` and loop iterations, the four
arrays still have `TARGET_COUNT` entries, `targetCount ≤ TARGET_COUNT`, every valid entry of
`hostsIndex` is below `TARGET_COUNT`, and the cursor is below `targetCount` when there is a
valid target. Hence every index used by these functions is inside its array: a valid `k`, the
cursor and 0 in `targets`, `pingSentCount`, `pingRcvdCount` and `hostsIndex`, and
`hostsIndex[k]` and `hostsIndex[pingIndex]` in `pingHosts`. -/
theorem index_safety (cfg : Config) (s0 : State) (acts : List Action)
    (hsized : s0.Sized cfg) :
    (runActions cfg (setupTargets cfg s0).1 acts).1.Sized cfg ∧
    (runActions cfg (setupTargets cfg s0).1 acts).1.targetCount ≤ cfg.TARGET_COUNT ∧
    (∀ k, k < (runActions cfg (setupTargets cfg s0).1 acts).1.targetCount →
      (runActions cfg (setupTargets cfg s0).1 acts).1.hostsIndex.getD k 0
        < cfg.TARGET_COUNT) ∧
    (1 ≤ (runActions cfg (setupTargets cfg s0).1 acts).1.targetCount →
      (runActions cfg (setupTargets cfg s0).1 acts).1.pingIndex
        < (runActions cfg (setupTargets cfg s0).1 acts).1.targetCount) ∧
    (∀ k, k < (runActions cfg (setupTargets cfg s0).1 acts).1.targetCount →
      k < (runActions cfg (setupTargets cfg s0).1 acts).1.targets.length ∧
      k < (runActions cfg (setupTargets cfg s0).1 acts).1.pingSentCount.length ∧
      k < (runActions cfg (setupTargets cfg s0).1 acts).1.pingRcvdCount.length ∧
      k < (runActions cfg (setupTargets cfg s0).1 acts).1.hostsIndex.length ∧
      (runActions cfg (setupTargets cfg s0).1 acts).1.hostsIndex.getD k 0
        < cfg.pingHosts.length) ∧
    (1 ≤ (runActions cfg (setupTargets cfg s0).1 acts).1.targetCount →
      (runActions cfg (setupTargets cfg s0).1 acts).1.pingIndex
        < (runActions cfg (setupTargets cfg s0).1 acts).1.targets.length ∧
      (runActions cfg (setupTargets cfg s0).1 acts).1.pingIndex
        < (runActions cfg (setupTargets cfg s0).1 acts).1.pingSentCount.length ∧
      (runActions cfg (setupTargets cfg s0).1 acts).1.pingIndex
        < (runActions cfg (setupTargets cfg s0).1 acts).1.hostsIndex.length ∧
      0 < (runActions cfg (setupTargets cfg s0).1 acts).1.pingSentCount.length ∧
      (runActions cfg (setupTargets cfg s0).1 acts).1.hostsIndex.getD
        (runActions cfg (setupTargets cfg s0).1 acts).1.pingIndex 0
        < cfg.pingHosts.length) := by
  have hsafe : IndexSafe cfg (runActions cfg (setupTargets cfg s0).1 acts).1 :=
    IndexSafe.kept_safe_run acts (IndexSafe.initial_safe cfg s0 hsized)
  generalize (runActions cfg (setupTargets cfg s0).1 acts).1 = S at hsafe ⊢
  obtain ⟨z1, z2, z3, z4⟩ := hsafe.sized
  have hcount := hsafe.count
  refine ⟨hsafe.sized, hcount, hsafe.hosts, hsafe.cursor, ?_, ?_⟩
  · intro k hk
    exact ⟨by omega, by omega, by omega, by omega, hsafe.hosts k hk⟩
  · intro hn
    have hc := hsafe.cursor hn
    exact ⟨by omega, by omega, by omega, by omega, hsafe.hosts _ hc⟩

/-- Witness of C19: for the hosts 8.8.8.8 and not-a-real-host, after two pings, a reply and a
report, the cursor is on the only valid target and its `hostsIndex` entry is an index of
`pingHosts`. -/
theorem index_safety_witness :
    (runActions twoHostConfig (setupTargets twoHostConfig (State.boot twoHostConfig)).1
      [Action.ping 10000, Action.response 10050 10050 { answer := true, addr := 134744072 },
       Action.ping 20000, Action.report 120000]).1.pingIndex
      < (runActions twoHostConfig (setupTargets twoHostConfig (State.boot twoHostConfig)).1
      [Action.ping 10000, Action.response 10050 10050 { answer := true, addr := 134744072 },
       Action.ping 20000, Action.report 120000]).1.targetCount :=
  (index_safety twoHostConfig (State.boot twoHostConfig)
    [Action.ping 10000, Action.response 10050 10050 { answer := true, addr := 134744072 },
     Action.ping 20000, Action.report 120000] (by decide)).2.2.2.1 (by decide)

/-! ## The automatic reset -/

/-- As long as fewer than `(RESET_COUNTER + 1) * targetCount` pings have been dispatched
since the reset, consecutive dispatches make no reset and keep the count of dispatches equal
to `q * targetCount + pingIndex`. -/
theorem run_pings_profile (cfg : Config) (ts : List Nat) :
    ∀ (s : State) (q : Nat), Balanced s q →
      q * s.targetCount + s.pingIndex + ts.length ≤ 90001 * s.targetCount →
      ∃ q2, Balanced (runActions cfg s (ts.map Action.ping)).1 q2 ∧
        q2 * s.targetCount + (runActions cfg s (ts.map Action.ping)).1.pingIndex
          = q * s.targetCount + s.pingIndex + ts.length ∧
        (runActions cfg s (ts.map Action.ping)).1.targetCount = s.targetCount := by
  induction ts with
  | nil =>
    intro s q hb _
    exact ⟨q, hb, rfl, rfl⟩
  | cons t rest ih =>
    intro s q hb hm
    simp only [List.length_cons] at hm
    have hc := hb.cursor
    have hno : resetDue s = false := by
      cases hd : resetDue s with
      | false => rfl
      | true =>
        rw [resetDue_iff] at hd
        obtain ⟨hz, hgt⟩ := hd
        have hp0 := hb.profile 0 (by omega)
        rw [hz] at hp0
        simp only [Nat.lt_irrefl, if_false] at hp0
        unfold RESET_COUNTER at hgt
        have hq : 90001 ≤ q := by omega
        have hmul : 90001 * s.targetCount ≤ q * s.targetCount :=
          Nat.mul_le_mul_right _ hq
        omega
    obtain ⟨d1, d2, d3⟩ := hb.advance cfg t hno
    have hstep : (if s.pingIndex + 1 = s.targetCount then q + 1 else q) * s.targetCount
        + (sendTargetPing cfg t s).1.pingIndex = q * s.targetCount + s.pingIndex + 1 := by
      rw [d2]
      by_cases he : s.pingIndex + 1 = s.targetCount
      · rw [if_pos he, if_pos he, Nat.succ_mul]
        omega
      · rw [if_neg he, if_neg he]
        omega
    obtain ⟨q2, i1, i2, i3⟩ := ih (sendTargetPing cfg t s).1 _ d1 (by rw [d3, hstep]; omega)
    rw [d3] at i2 i3
    have i4 : q2 * s.targetCount
        + (runActions cfg (sendTargetPing cfg t s).1 (rest.map Action.ping)).1.pingIndex
        = q * s.targetCount + s.pingIndex + (rest.length + 1) := by
      rw [i2, hstep]
      omega
    exact ⟨q2, i1, i4, i3⟩

/-- From freshly reset counters, and up to `(RESET_COUNTER + 1) * targetCount` dispatches, the
next dispatch carries out the reset exactly when `(RESET_COUNTER + 1) * targetCount`
dispatches have been made. -/
theorem resetDue_after_dispatches (cfg : Config) (s : State) (ts : List Nat)
    (hfresh : Balanced s 0) (hcur : s.pingIndex = 0)
    (hm : ts.length ≤ 90001 * s.targetCount) :
    resetDue (runActions cfg s (ts.map Action.ping)).1 = true ↔
      ts.length = 90001 * s.targetCount := by
  obtain ⟨q2, hb, heq, hn⟩ := run_pings_profile cfg ts s 0 hfresh (by rw [hcur]; omega)
  rw [hcur] at heq
  simp only [Nat.zero_mul, Nat.zero_add, Nat.add_zero] at heq
  have hc := hb.cursor
  rw [hn] at hc
  have hp0 := hb.profile 0 (by omega)
  rw [resetDue_iff]
  unfold RESET_COUNTER
  constructor
  · rintro ⟨hz, hgt⟩
    rw [hz] at hp0 heq
    simp only [Nat.lt_irrefl, if_false] at hp0
    have hq : 90001 ≤ q2 := by omega
    have hmul : 90001 * s.targetCount ≤ q2 * s.targetCount := Nat.mul_le_mul_right _ hq
    omega
  · intro hlen
    rw [hlen] at heq
    have hq : q2 = 90001 := by
      rcases Nat.lt_trichotomy q2 90001 with hlt | he | hgt
      · have h1 : (q2 + 1) * s.targetCount ≤ 90001 * s.targetCount :=
          Nat.mul_le_mul_right _ hlt
        rw [Nat.succ_mul] at h1
        omega
      · exact he
      · have h1 : 90002 * s.targetCount ≤ q2 * s.targetCount :=
          Nat.mul_le_mul_right _ hgt
        omega
    subst hq
    have hz : (runActions cfg s (ts.map Action.ping)).1.pingIndex = 0 := by omega
    rw [hz] at hp0
    simp only [Nat.lt_irrefl, if_false] at hp0
    exact ⟨hz, by rw [hp0]; norm_num⟩

theorem pingTicks_eq (m : Nat) :
    pingTicks m =
      ((List.range m).map (fun i => PING_INTERVAL * 1000 * (i + 1))).map Action.ping := by
  unfold pingTicks
  rw [List.map_map]
  rfl

theorem balanced_afterSetup_sketch :
    Balanced (setupTargets sketchConfig (State.boot sketchConfig)).1 0 where
  size := by decide
  cursor := by decide
  profile := by decide

/-- C11, evaluated on the code: on the committed configuration (one target), from the freshly
reset counters left by `setupTargets`, after the first 90000 ticks of the ping timer
(`RESET_COUNTER` requests sent to every target) the reset is not due, so dispatch number
`90000 * 1 + 1` does not carry it out; the reset is due only after 90001 ticks, and is carried
out by dispatch number 90002. -/
theorem reset_one_round_late :
    RESET_COUNTER = 90000 ∧
    (setupTargets sketchConfig (State.boot sketchConfig)).1.targetCount = 1 ∧
    resetDue (runActions sketchConfig (setupTargets sketchConfig (State.boot sketchConfig)).1
      (pingTicks 90000)).1 = false ∧
    resetDue (runActions sketchConfig (setupTargets sketchConfig (State.boot sketchConfig)).1
      (pingTicks 90001)).1 = true := by
  have hn : (setupTargets sketchConfig (State.boot sketchConfig)).1.targetCount = 1 := by
    decide
  have hcur : (setupTargets sketchConfig (State.boot sketchConfig)).1.pingIndex = 0 := by
    decide
  refine ⟨rfl, hn, ?_, ?_⟩
  · have h := resetDue_after_dispatches sketchConfig
      (setupTargets sketchConfig (State.boot sketchConfig)).1
      ((List.range 90000).map (fun i => PING_INTERVAL * 1000 * (i + 1)))
      balanced_afterSetup_sketch hcur (by rw [hn]; simp)
    rw [hn] at h
    rw [pingTicks_eq]
    cases hd : resetDue (runActions sketchConfig
        (setupTargets sketchConfig (State.boot sketchConfig)).1
        (((List.range 90000).map (fun i => PING_INTERVAL * 1000 * (i + 1))).map
          Action.ping)).1 with
    | false => rfl
    | true =>
      have h2 := h.mp hd
      simp at h2
  · have h := resetDue_after_dispatches sketchConfig
      (setupTargets sketchConfig (State.boot sketchConfig)).1
      ((List.range 90001).map (fun i => PING_INTERVAL * 1000 * (i + 1)))
      balanced_afterSetup_sketch hcur (by rw [hn]; simp)
    rw [hn] at h
    rw [pingTicks_eq]
    exact h.mpr (by simp)

end Watchdog
